import Mathlib

/-!
Verification development for the forge static site generator.

This file gives a shallow embedding, in Lean 4, of the parts of the C++
source that the specification claims talk about:

* front-matter scalar coercion in `TemplateEngine::serialize_page`
  (src/core/template_engine.hpp),
* URL derivation and content discovery in `SiteBuilder::discover_content`
  (src/core/site_builder.cpp),
* collection sorting in `SiteBuilder::build_collections`,
* the minification fallback wrappers (`SiteBuilder::minify_*_content` over
  `JSMinifier::minify*` from src/core/js_minifier.cpp),
* the streaming HTML minifier (`HtmlMinifier::minify`,
  src/core/html_minifier.cpp),
* the file-watch rebuild handler (`DevServerListener::handleFileAction`,
  src/utils/file_watcher_listener.cpp),
* page rendering (`SiteBuilder::render_page` and `TemplateEngine::render`),
* front-matter parsing (`FrontMatter::parse`, src/core/frontmatter.cpp).

External collaborators (YAML tree parser, Markdown converter, the inja
template expression language, the QuickJS-hosted minifier bundles) are
modelled as explicit function parameters, following the boundary the
specification itself draws.  Machine integers are modelled as `Int` with
the relevant range checks made explicit; `double` parsing is modelled by
exact rationals together with the success or failure of the conversion,
which is all the classification claims depend on.
-/

set_option maxRecDepth 10000

/-! ### Shared character and list utilities -/

/-- Null character, the C++ `\0` sentinel used by `last_char`. -/
def nulChar : Char := Char.ofNat 0

/-- Model of `HtmlMinifier::is_whitespace` (space, tab, newline, carriage
return).  The same set is what `std::isspace` reports for the inputs the
code feeds it in the relevant paths. -/
def wsChar (c : Char) : Bool :=
  c == ' ' || c == '\t' || c == '\n' || c == '\r'

/-- ASCII `std::isdigit`. -/
def digitChar (c : Char) : Bool :=
  '0' ≤ c && c ≤ '9'

/-- ASCII `std::isalnum` (letters and digits; the C++ code only ever relies
on the ASCII range). -/
def alnumChar (c : Char) : Bool :=
  ('0' ≤ c && c ≤ '9') || ('a' ≤ c && c ≤ 'z') || ('A' ≤ c && c ≤ 'Z')

/-- ASCII `std::tolower` as used when accumulating tag names. -/
def lowerChar (c : Char) : Char :=
  if 'A' ≤ c && c ≤ 'Z' then Char.ofNat (c.toNat + 32) else c

/-- Character of `s` at absolute index `i`; the C++ scanners only read
indices they have bounds-checked, so the default is irrelevant there. -/
def charAt (s : List Char) (i : Nat) : Char :=
  s.getD i nulChar

/-- Model of `std::string::substr(i, n)` restricted to the in-range uses:
the slice of length `n` starting at `i` (shorter near the end). -/
def extract (s : List Char) (i n : Nat) : List Char :=
  (s.drop i).take n

/-- Helper for `findFrom`: does `pat` occur at absolute position `i`? -/
def matchesAt (s pat : List Char) (i : Nat) : Bool :=
  extract s i pat.length == pat

/-- Fuel-indexed scan for `findFrom`. -/
def findFromAux (s pat : List Char) : Nat → Nat → Option Nat
  | _, 0 => none
  | i, fuel + 1 =>
    if i + pat.length ≤ s.length then
      if matchesAt s pat i then some i else findFromAux s pat (i + 1) fuel
    else
      none

/-- Model of `std::string::find(pat, i)`: first position `≥ i` at which
`pat` occurs in full, `none` for `npos`. -/
def findFrom (s pat : List Char) (i : Nat) : Option Nat :=
  findFromAux s pat i (s.length + 1)

/-- Lookup in an association list, the model of map access keyed by
string. -/
def alistGet {α : Type} (l : List (String × α)) (k : String) : Option α :=
  match l with
  | [] => none
  | (k', v) :: rest => if k' = k then some v else alistGet rest k

/-- Insertion with replacement, the model of `map[k] = v` (last writer
wins, as for `std::map::operator[]` and `nlohmann::json::operator[]`). -/
def alistSet {α : Type} (l : List (String × α)) (k : String) (v : α) :
    List (String × α) :=
  match l with
  | [] => [(k, v)]
  | (k', v') :: rest =>
    if k' = k then (k, v) :: rest else (k', v') :: alistSet rest k v

/-! ### JSON values

Shallow model of the `nlohmann::json` values the template context is built
from.  Floating point results of `std::stod` are carried as exact
rationals; the claims under verification only depend on which constructor
is produced and on values that are exactly representable. -/

inductive Json where
  | null : Json
  | jbool : Bool → Json
  | jint : Int → Json
  | jfloat : ℚ → Json
  | jstr : String → Json
  | jarr : List Json → Json
  | jobj : List (String × Json) → Json

/-- Field access on an object, `none` on anything else or a missing key. -/
def Json.get? : Json → String → Option Json
  | .jobj kvs, k => alistGet kvs k
  | _, _ => none

/-- Field update on an object (`operator[]` assignment). -/
def Json.set : Json → String → Json → Json
  | .jobj kvs, k, v => .jobj (alistSet kvs k v)
  | j, _, _ => j

/-! ### Front matter (src/core/frontmatter.hpp)

`FrontMatter` holds a string-to-string map `data`, a map of string lists
`arrays` and the distinguished `tags` list.  The `std::map` is modelled as
an association list; `std::map` keys are unique, which theorems state as a
`Nodup` hypothesis where they need it. -/

structure FrontMatter where
  data : List (String × String)
  arrays : List (String × List String)
  tags : List String
deriving DecidableEq, Repr

/-- Empty front matter (absent delimiters produce this). -/
def FrontMatter.empty : FrontMatter := ⟨[], [], []⟩

/-- Model of `FrontMatter::get(key, default_val)`. -/
def FrontMatter.get (fm : FrontMatter) (key deflt : String) : String :=
  (alistGet fm.data key).getD deflt

/-- Model of `PageInfo` (src/core/template_engine.hpp).  Paths are carried
as plain strings; `template_path` is the empty string when the C++ path is
empty. -/
structure PageInfo where
  content_path : String
  template_path : String
  url : String
  content_type : String
  frontmatter : FrontMatter
  html_content : String
  needs_template : Bool
deriving DecidableEq, Repr

/-! ### Claim C2: front-matter scalar coercion in `serialize_page` -/

/-- Occurrence of the loose date pattern (2 to 4 digits, a dash or slash
separator, 1 to 2 digits, another dash or slash, 1 to 4 digits) at
position `i` of `s`, for some choice of the three digit-run lengths.
`std::regex_search` succeeds exactly when some position and some choice of
run lengths matches, which the bounded existentials below enumerate. -/
def datePatternAt (s : List Char) (i : Nat) : Bool :=
  [2, 3, 4].any fun a =>
    [1, 2].any fun b =>
      [1, 2, 3, 4].any fun c =>
        i + a + b + c + 2 ≤ s.length &&
        (extract s i a).all digitChar &&
        (charAt s (i + a) == '-' || charAt s (i + a) == '/') &&
        (extract s (i + a + 1) b).all digitChar &&
        (charAt s (i + a + 1 + b) == '-' ||
          charAt s (i + a + 1 + b) == '/') &&
        (extract s (i + a + 2 + b) c).all digitChar

/-- Model of `std::regex_search(value, date_pattern)` for the pattern
above: an unanchored search over all start positions. -/
def dateSearch (value : String) : Bool :=
  (List.range (value.data.length + 1)).any fun i => datePatternAt value.data i

/-- Model of `std::stoi`: parses an optional leading sign followed by
digits, stops at the first non-digit, fails with no digits
(`std::invalid_argument`) or outside the `int` range
(`std::out_of_range`).  Leading whitespace never occurs in the values the
caller feeds in, so it is not modelled. -/
def stoiOpt (value : String) : Option Int :=
  let (neg, rest) :=
    match value.data with
    | '-' :: cs => (true, cs)
    | '+' :: cs => (false, cs)
    | cs => (false, cs)
  let digits := rest.takeWhile digitChar
  if digits = [] then none
  else
    let n : Nat := digits.foldl (fun acc c => acc * 10 + (c.toNat - '0'.toNat)) 0
    let v : Int := if neg then -(n : Int) else (n : Int)
    if -(2 ^ 31) ≤ v ∧ v ≤ 2 ^ 31 - 1 then some v else none

/-- Largest finite `double`, `(2^53 - 1) * 2^971`. -/
def maxDouble : ℚ := mkRat (((2 ^ 53 - 1) * 2 ^ 971 : Nat) : Int) 1

/-- Smallest positive normal `double`, `2^-1022`; glibc `std::stod` throws
`std::out_of_range` below it (underflow) and above `maxDouble`
(overflow). -/
def minNormalDouble : ℚ := mkRat 1 (2 ^ 1022)

/-- Model of `std::stod` on the restricted alphabet the caller admits
(digits, at most one dot, an optional leading minus): the exactly parsed
decimal value, `none` when there is no digit to parse
(`std::invalid_argument`) or the magnitude falls outside the `double`
range (`std::out_of_range`).  The rounding of the result to the nearest
`double` is not modelled; the claims only use exactly representable
values. -/
def stodOpt (value : String) : Option ℚ :=
  let (neg, rest) :=
    match value.data with
    | '-' :: cs => (true, cs)
    | '+' :: cs => (false, cs)
    | cs => (false, cs)
  let intPart := rest.takeWhile digitChar
  let afterInt := rest.drop intPart.length
  let fracPart :=
    match afterInt with
    | '.' :: cs => cs.takeWhile digitChar
    | _ => []
  if intPart = [] ∧ fracPart = [] then none
  else
    let ip : Nat := intPart.foldl (fun acc c => acc * 10 + (c.toNat - '0'.toNat)) 0
    let fp : Nat := fracPart.foldl (fun acc c => acc * 10 + (c.toNat - '0'.toNat)) 0
    let den : Nat := 10 ^ fracPart.length
    let mag : ℚ := mkRat ((ip * den + fp : Nat) : Int) den
    let q : ℚ := if neg then -mag else mag
    if mag ≤ maxDouble ∧ (mag = 0 ∨ minNormalDouble ≤ mag) then some q
    else none

/-- Number of occurrences of a character, `std::count`. -/
def countChar (value : String) (c : Char) : Nat :=
  value.data.countP (· == c)

/-- Model of the scalar coercion performed for each non-tag front-matter
entry in `TemplateEngine::serialize_page` (template_engine.hpp:204-247),
transliterating the staged `is_number` computation and the
`std::stoi` / `std::stod` calls with their catch-all fallback. -/
def serializeScalar (value : String) : Json :=
  if value = "true" ∨ value = "false" then .jbool (value = "true")
  else if dateSearch value then .jstr value
  else
    let isNumber0 :=
      value ≠ "" ∧ value.data.all fun c => digitChar c || c == '.' || c == '-'
    let dots := countChar value '.'
    let hyphens := countChar value '-'
    let isNumber :=
      isNumber0 ∧ dots ≤ 1 ∧ hyphens ≤ 1 ∧
        (hyphens = 1 → charAt value.data 0 = '-')
    if isNumber then
      if value.data.contains '.' then
        match stodOpt value with
        | some q => .jfloat q
        | none => .jstr value
      else
        match stoiOpt value with
        | some n => .jint n
        | none => .jstr value
    else .jstr value

/-- Model of `TemplateEngine::serialize_page`: the fixed `url`,
`content_type` and `html_content` fields, the optional `tags` list, then
one coerced entry per scalar front-matter pair with key other than
`tags`. -/
def serializePage (page : PageInfo) : Json :=
  let base : Json := .jobj
    [("url", .jstr page.url),
     ("content_type", .jstr page.content_type),
     ("html_content", .jstr page.html_content)]
  let withTags :=
    if page.frontmatter.tags ≠ [] then
      base.set "tags" (.jarr (page.frontmatter.tags.map Json.jstr))
    else base
  page.frontmatter.data.foldl
    (fun acc (kv : String × String) =>
      if kv.1 = "tags" then acc else acc.set kv.1 (serializeScalar kv.2))
    withTags

/-- Model of `TemplateEngine::serialize_collection`. -/
def serializeCollection (pages : List PageInfo) : Json :=
  .jarr (pages.map serializePage)

/-- Numeric-class predicate spelled exactly as claim C2 words it: the
value consists solely of digits, dot and minus, with at most one dot, at
most one minus, and any minus only as a leading sign. -/
def claimNumericClass (value : String) : Bool :=
  value ≠ "" &&
  value.data.all (fun c => digitChar c || c == '.' || c == '-') &&
  countChar value '.' ≤ 1 &&
  countChar value '-' ≤ 1 &&
  (countChar value '-' == 0 || charAt value.data 0 == '-')

/-- Claim C2 coercion contract, literally as stated: boolean for exactly
true or false, string on a loose-date match, otherwise an integer or
float for every value in the numeric class (with no provision for a
failing conversion), string for everything else.  The integer branch is
therefore modelled with the unbounded parsed value. -/
def claimCoerceLiteral (value : String) : Json :=
  if value = "true" ∨ value = "false" then .jbool (value = "true")
  else if dateSearch value then .jstr value
  else if claimNumericClass value then
    if value.data.contains '.' then
      match stodOpt value with
      | some q => .jfloat q
      | none => .jfloat 0
    else
      let (neg, rest) :=
        match value.data with
        | '-' :: cs => (true, cs)
        | cs => (false, cs)
      let n : Nat := rest.foldl (fun acc c => acc * 10 + (c.toNat - '0'.toNat)) 0
      .jint (if neg then -(n : Int) else (n : Int))
  else .jstr value

/-- Claim C2 coercion contract amended with the proviso the code forces:
a value in the numeric class is parsed as an integer (no dot) or float
(dot present) only when the conversion succeeds, and stays a string when
the conversion fails (no digits to parse, or out of the `int` or `double`
range). -/
def claimCoerceAmended (value : String) : Json :=
  if value = "true" ∨ value = "false" then .jbool (value = "true")
  else if dateSearch value then .jstr value
  else if claimNumericClass value then
    if value.data.contains '.' then
      match stodOpt value with
      | some q => .jfloat q
      | none => .jstr value
    else
      match stoiOpt value with
      | some n => .jint n
      | none => .jstr value
  else .jstr value

/-! ### Association list and object lemmas -/

theorem alistGet_alistSet_self {α : Type} (l : List (String × α)) (k : String)
    (v : α) : alistGet (alistSet l k v) k = some v := by
  induction l with
  | nil => simp [alistGet, alistSet]
  | cons hd tl ih =>
    obtain ⟨k', v'⟩ := hd
    by_cases h : k' = k <;> simp [alistGet, alistSet, h, ih]

theorem alistGet_alistSet_other {α : Type} (l : List (String × α))
    (k k' : String) (v : α) (h : k' ≠ k) :
    alistGet (alistSet l k' v) k = alistGet l k := by
  induction l with
  | nil => simp [alistGet, alistSet, h]
  | cons hd tl ih =>
    obtain ⟨k'', v''⟩ := hd
    by_cases h2 : k'' = k'
    · subst h2; simp [alistGet, alistSet, h]
    · simp [alistGet, alistSet, h2, ih]

/-- The `Json` value is an object. -/
def Json.isObj : Json → Prop
  | .jobj _ => True
  | _ => False

theorem Json.isObj_set {j : Json} (h : j.isObj) (k : String) (v : Json) :
    (j.set k v).isObj := by
  cases j <;> simp_all [Json.isObj, Json.set]

theorem Json.get?_set_self {j : Json} (h : j.isObj) (k : String) (v : Json) :
    (j.set k v).get? k = some v := by
  cases j <;> simp_all [Json.isObj, Json.set, Json.get?, alistGet_alistSet_self]

theorem Json.get?_set_other (j : Json) {k k' : String} (v : Json)
    (h : k' ≠ k) : (j.set k' v).get? k = j.get? k := by
  cases j <;> simp_all [Json.set, Json.get?, alistGet_alistSet_other]

/-- One step of the front-matter serialization fold. -/
def serializeStep (acc : Json) (kv : String × String) : Json :=
  if kv.1 = "tags" then acc else acc.set kv.1 (serializeScalar kv.2)

theorem serializePage_eq_fold (p : PageInfo) :
    serializePage p =
      p.frontmatter.data.foldl serializeStep
        (if p.frontmatter.tags ≠ [] then
          (Json.jobj
            [("url", .jstr p.url),
             ("content_type", .jstr p.content_type),
             ("html_content", .jstr p.html_content)]).set "tags"
            (.jarr (p.frontmatter.tags.map Json.jstr))
         else
          Json.jobj
            [("url", .jstr p.url),
             ("content_type", .jstr p.content_type),
             ("html_content", .jstr p.html_content)]) := rfl

theorem serializeFold_untouched (l : List (String × String)) (k : String) :
    ∀ (acc : Json), (∀ kv ∈ l, kv.1 ≠ k) →
      (l.foldl serializeStep acc).get? k = acc.get? k := by
  induction l with
  | nil => intro acc _; rfl
  | cons hd tl ih =>
    intro acc hk
    have hhd : hd.1 ≠ k := hk hd (by simp)
    have htl : ∀ kv ∈ tl, kv.1 ≠ k := fun kv h => hk kv (by simp [h])
    simp only [List.foldl_cons, ih _ htl]
    unfold serializeStep
    split
    · rfl
    · exact Json.get?_set_other acc _ hhd

theorem serializeFold_isObj (l : List (String × String)) :
    ∀ (acc : Json), acc.isObj → (l.foldl serializeStep acc).isObj := by
  induction l with
  | nil => intro acc h; exact h
  | cons hd tl ih =>
    intro acc h
    simp only [List.foldl_cons]
    apply ih
    unfold serializeStep
    split
    · exact h
    · exact Json.isObj_set h _ _

theorem serializeFold_get (l : List (String × String)) (k v : String) :
    ∀ (acc : Json), acc.isObj → (l.map Prod.fst).Nodup →
      (k, v) ∈ l → k ≠ "tags" →
      (l.foldl serializeStep acc).get? k = some (serializeScalar v) := by
  induction l with
  | nil => intro acc _ _ hmem _; cases hmem
  | cons hd tl ih =>
    intro acc hobj hnd hmem hk
    simp only [List.map_cons, List.nodup_cons] at hnd
    rcases List.mem_cons.mp hmem with heq | hmemtl
    · have hhd : hd = (k, v) := heq.symm
      subst hhd
      have hk' : ∀ kv ∈ tl, kv.1 ≠ k := by
        intro kv hkv hcontra
        have hmm : kv.1 ∈ tl.map Prod.fst := List.mem_map_of_mem Prod.fst hkv
        rw [hcontra] at hmm
        exact hnd.1 hmm
      simp only [List.foldl_cons]
      rw [serializeFold_untouched tl k _ hk']
      unfold serializeStep
      simp only [hk, if_false, ite_false]
      exact Json.get?_set_self hobj k _
    · simp only [List.foldl_cons]
      refine ih _ ?_ hnd.2 hmemtl hk
      unfold serializeStep
      split
      · exact hobj
      · exact Json.isObj_set hobj _ _

theorem claimNumericClass_iff (v : String) :
    claimNumericClass v = true ↔
      ((v ≠ "" ∧ (v.data.all fun c => digitChar c || c == '.' || c == '-') = true) ∧
        countChar v '.' ≤ 1 ∧ countChar v '-' ≤ 1 ∧
        (countChar v '-' = 1 → charAt v.data 0 = '-')) := by
  unfold claimNumericClass
  simp only [Bool.and_eq_true, decide_eq_true_eq, Bool.or_eq_true, beq_iff_eq]
  constructor
  · rintro ⟨⟨⟨⟨hne, hall⟩, hd⟩, hh⟩, hlead⟩
    refine ⟨⟨hne, hall⟩, hd, hh, ?_⟩
    intro h1
    rcases hlead with h0 | hl
    · omega
    · exact hl
  · rintro ⟨⟨hne, hall⟩, hd, hh, hlead⟩
    refine ⟨⟨⟨⟨hne, hall⟩, hd⟩, hh⟩, ?_⟩
    rcases Nat.lt_or_ge (countChar v '-') 1 with h | h
    · left; omega
    · right; exact hlead (by omega)

theorem serializeScalar_eq_claim (v : String) :
    serializeScalar v = claimCoerceAmended v := by
  unfold serializeScalar claimCoerceAmended
  by_cases h1 : v = "true" ∨ v = "false"
  · simp only [h1, if_true, if_pos]
  · rw [if_neg h1, if_neg h1]
    by_cases h2 : dateSearch v = true
    · rw [if_pos h2, if_pos h2]
    · rw [if_neg h2, if_neg h2]
      exact if_congr (claimNumericClass_iff v).symm rfl rfl

/-- Concrete page used to witness the claim C2 theorem. -/
def samplePage : PageInfo :=
  { content_path := "content/blog/post1.md"
    template_path := ""
    url := "/blog/post1"
    content_type := "blog"
    frontmatter :=
      ⟨[("date", "2024-01-05"), ("draft", "true"), ("order", "3"),
        ("rating", "4.5"), ("title", "Hello")], [], []⟩
    html_content := "<p>hi</p>"
    needs_template := true }

/-- Claim C2, corrected.  The coercion contract holds with one proviso the
code forces: a numeric-class value whose `std::stoi` or `std::stod`
conversion fails (no digits to parse, or a magnitude outside the `int` or
`double` range) stays a string instead of becoming a number.  The first
conjunct proves the per-value contract in that amended form, the second
lifts it to every non-tag entry of a page serialized by `serialize_page`,
and the rest check the five examples quoted by the claim. -/
theorem claim_C2_frontmatter_coercion :
    (∀ v : String, serializeScalar v = claimCoerceAmended v) ∧
    (∀ (p : PageInfo) (k v : String),
      (p.frontmatter.data.map Prod.fst).Nodup →
      (k, v) ∈ p.frontmatter.data → k ≠ "tags" →
      (serializePage p).get? k = some (claimCoerceAmended v)) ∧
    serializeScalar "Hello" = .jstr "Hello" ∧
    serializeScalar "true" = .jbool true ∧
    serializeScalar "3" = .jint 3 ∧
    serializeScalar "4.5" = .jfloat (mkRat 9 2) ∧
    serializeScalar "2024-01-05" = .jstr "2024-01-05" := by
  refine ⟨serializeScalar_eq_claim, ?_, rfl, rfl, rfl, rfl, rfl⟩
  intro p k v hnd hmem hk
  rw [serializePage_eq_fold, ← serializeScalar_eq_claim]
  refine serializeFold_get _ _ _ _ ?_ hnd hmem hk
  split
  · exact @Json.isObj_set (Json.jobj _) trivial _ _
  · exact (trivial : (Json.jobj _).isObj)

/-- Witness for claim C2: the theorem applied to the sample page at the
entry `order ↦ 3`. -/
theorem claim_C2_witness :
    (serializePage samplePage).get? "order" = some (Json.jint 3) := by
  rw [claim_C2_frontmatter_coercion.2.1 samplePage "order" "3" (by decide)
    (by decide) (by decide)]
  rfl

/-- Claim C2 counterexample: the value 9999999999 lies in the numeric
class the claim describes (only digits, no dot, no minus, no date-pattern
match), so the claim as stated makes it the integer 9999999999; the code
instead falls into the `std::out_of_range` catch of `std::stoi` (the value
exceeds `INT_MAX`) and keeps it a string. -/
theorem claim_C2_counterexample :
    claimNumericClass "9999999999" = true ∧
    ("9999999999" : String).data.contains '.' = false ∧
    dateSearch "9999999999" = false ∧
    claimCoerceLiteral "9999999999" = Json.jint 9999999999 ∧
    serializeScalar "9999999999" = Json.jstr "9999999999" ∧
    Json.jstr "9999999999" ≠ Json.jint 9999999999 :=
  ⟨by decide, by decide, by decide, rfl, rfl, fun h => Json.noConfusion h⟩

/-! ### Claim C3: URL derivation in `discover_content`

The C++ walks `fs::path` components; the embedding receives the relative
path of a content file as its list of components (`segs`). -/

/-- Index of the last dot in a filename, if any. -/
def lastDotIdx (s : List Char) : Option Nat :=
  ((List.range s.length).filter fun i => charAt s i == '.').getLast?

/-- Model of `fs::path::stem` on a single path component: the component
with its final extension removed; a leading dot (hidden file) or the
special names `.` and `..` keep the full component. -/
def pathStem (name : String) : String :=
  if name = "." ∨ name = ".." then name
  else
    match lastDotIdx name.data with
    | none => name
    | some 0 => name
    | some k => String.mk (name.data.take k)

/-- Model of `fs::path::extension` on a single path component (the final
dot and everything after it; empty for hidden files and dotless names). -/
def pathExt (name : String) : String :=
  if name = "." ∨ name = ".." then ""
  else
    match lastDotIdx name.data with
    | none => ""
    | some 0 => ""
    | some k => String.mk (name.data.drop k)

/-- `rest_path.stem()` for the path assembled from the components after
the first one: the stem of the last component, empty for an empty
remainder (site_builder.cpp:153-159 and 167-171). -/
def restStem (segs : List String) : String :=
  match segs.getLast? with
  | none => ""
  | some s => pathStem s

/-- Model of the URL derivation of `SiteBuilder::discover_content`
(site_builder.cpp:141-177).  With no components the C++ `url_path` stays
empty; a regular file always has at least one. -/
def deriveUrl (segs : List String) : String :=
  match segs with
  | [] => ""
  | first :: rest =>
    if first = "pages" then
      if restStem rest = "index" then "/" else "/" ++ restStem rest
    else
      if rest ≠ [] ∧ restStem rest ≠ "index" then
        "/" ++ first ++ "/" ++ restStem rest
      else "/" ++ first

/-- Claim C3 URL mapping, literally as stated: the root URL is reserved
for an index stem directly under pages (a two-component path); any other
file under pages gets its stem.  Paths outside the claim (a bare
top-level file, whose first segment is not a directory) give `none`. -/
def claimUrlLiteral (segs : List String) : Option String :=
  match segs with
  | [] => none
  | [_] => none
  | first :: rest =>
    some
      (if first = "pages" then
        if rest.length = 1 ∧ pathStem (rest.getLast?.getD "") = "index" then "/"
        else "/" ++ restStem rest
      else
        if restStem rest = "index" then "/" ++ first
        else "/" ++ first ++ "/" ++ restStem rest)

/-- Claim C3 URL mapping amended as the code forces: under pages the root
URL goes to every file whose stem is `index`, at any depth, not only to
one directly under pages (intermediate directories are always flattened
away). -/
def claimUrlAmended (segs : List String) : Option String :=
  match segs with
  | [] => none
  | [_] => none
  | first :: rest =>
    some
      (if first = "pages" then
        if restStem rest = "index" then "/" else "/" ++ restStem rest
      else
        if restStem rest = "index" then "/" ++ first
        else "/" ++ first ++ "/" ++ restStem rest)

/-- Claim C3, corrected.  The URL mapping holds in the amended form: under
pages, EVERY file whose stem is `index` maps to the root URL, not only an
index directly under pages — the code flattens intermediate directories
and only looks at the stem of the final component.  The remaining
conjuncts check the four mappings quoted by the claim. -/
theorem claim_C3_url_mapping :
    (∀ segs : List String, 2 ≤ segs.length →
      claimUrlAmended segs = some (deriveUrl segs)) ∧
    deriveUrl ["pages", "index.md"] = "/" ∧
    deriveUrl ["pages", "about.md"] = "/about" ∧
    deriveUrl ["blog", "index.md"] = "/blog" ∧
    deriveUrl ["blog", "post1.md"] = "/blog/post1" := by
  refine ⟨?_, rfl, rfl, rfl, rfl⟩
  intro segs hlen
  match segs with
  | [] => simp at hlen
  | [x] => simp at hlen
  | a :: b :: rest =>
    by_cases hp : a = "pages"
    · subst hp
      simp [claimUrlAmended, deriveUrl]
    · by_cases hi : restStem (b :: rest) = "index"
      · simp [claimUrlAmended, deriveUrl, hp, hi]
      · simp [claimUrlAmended, deriveUrl, hp, hi]

/-- Claim C3 counterexample: for pages/sub/index.md the claim as stated
derives `/index` (the file is under pages but not directly, so it falls
into the `/{stem}` case), while `discover_content` flattens the
subdirectory and derives `/`. -/
theorem claim_C3_counterexample :
    deriveUrl ["pages", "sub", "index.md"] = "/" ∧
    claimUrlLiteral ["pages", "sub", "index.md"] = some "/index" ∧
    ("/index" : String) ≠ "/" := ⟨rfl, rfl, by decide⟩

/-- Witness for claim C3: the general mapping applied to blog/post1.md. -/
theorem claim_C3_witness :
    claimUrlAmended ["blog", "post1.md"] = some (deriveUrl ["blog", "post1.md"]) :=
  claim_C3_url_mapping.1 ["blog", "post1.md"] (by decide)

/-! ### Claim C7: collection ordering in `build_collections` -/

/-- Lexicographic comparison of character lists by code point, the model
of `operator<` on `std::string` (byte order and code-point order agree on
UTF-8). -/
def lexLt : List Char → List Char → Bool
  | _, [] => false
  | [], _ :: _ => true
  | a :: as, b :: bs =>
    if a.toNat < b.toNat then true
    else if b.toNat < a.toNat then false
    else lexLt as bs

theorem charEq_of_toNat_eq {a b : Char} (h : a.toNat = b.toNat) : a = b := by
  apply Char.ext
  apply UInt32.ext
  simpa [Char.toNat] using h

theorem lexLt_cons_iff (x y : Char) (xs ys : List Char) :
    lexLt (x :: xs) (y :: ys) = true ↔
      (x.toNat < y.toNat ∨ (x.toNat = y.toNat ∧ lexLt xs ys = true)) := by
  simp only [lexLt]
  by_cases h1 : x.toNat < y.toNat
  · simp [h1]
  · by_cases h2 : y.toNat < x.toNat
    · simp [h1, h2]
      omega
    · have h3 : x.toNat = y.toNat := by omega
      simp [h1, h2, h3]

theorem lexLt_irrefl (l : List Char) : lexLt l l = false := by
  induction l with
  | nil => rfl
  | cons a as ih => simp [lexLt, ih]

theorem lexLt_trans : ∀ a b c : List Char,
    lexLt a b = true → lexLt b c = true → lexLt a c = true := by
  intro a
  induction a with
  | nil =>
    intro b c hab hbc
    cases c with
    | nil => cases b <;> simp [lexLt] at hab hbc
    | cons z zs => simp [lexLt]
  | cons x xs ih =>
    intro b c hab hbc
    cases b with
    | nil => simp [lexLt] at hab
    | cons y ys =>
      cases c with
      | nil => simp [lexLt] at hbc
      | cons z zs =>
        rw [lexLt_cons_iff] at hab hbc ⊢
        rcases hab with h1 | ⟨h1, hr1⟩
        · rcases hbc with h2 | ⟨h2, _⟩
          · left; omega
          · left; omega
        · rcases hbc with h2 | ⟨h2, hr2⟩
          · left; omega
          · right; exact ⟨by omega, ih ys zs hr1 hr2⟩

theorem lexLt_tricho : ∀ a b : List Char,
    lexLt a b = true ∨ lexLt b a = true ∨ a = b := by
  intro a
  induction a with
  | nil =>
    intro b
    cases b with
    | nil => right; right; rfl
    | cons y ys => left; simp [lexLt]
  | cons x xs ih =>
    intro b
    cases b with
    | nil => right; left; simp [lexLt]
    | cons y ys =>
      rcases Nat.lt_trichotomy x.toNat y.toNat with h | h | h
      · left; rw [lexLt_cons_iff]; left; exact h
      · rcases ih ys with h2 | h2 | h2
        · left; rw [lexLt_cons_iff]; right; exact ⟨h, h2⟩
        · right; left; rw [lexLt_cons_iff]; right; exact ⟨h.symm, h2⟩
        · right; right; rw [charEq_of_toNat_eq h, h2]
      · right; left; rw [lexLt_cons_iff]; left; exact h

/-- Ordered insertion; `sortByLe` below is the comparison sort modelling
`std::sort` along with its comparator.  `std::sort` is unstable and any
comparison sort satisfies the ordering the claim states; tie order is not
constrained by the claim. -/
def insertSorted {α : Type} (le : α → α → Bool) (x : α) : List α → List α
  | [] => [x]
  | y :: ys => if le x y then x :: y :: ys else y :: insertSorted le x ys

/-- Straight insertion sort over a boolean comparator. -/
def sortByLe {α : Type} (le : α → α → Bool) : List α → List α
  | [] => []
  | x :: xs => insertSorted le x (sortByLe le xs)

theorem insertSorted_perm {α : Type} (le : α → α → Bool) (x : α) :
    ∀ l : List α, (insertSorted le x l).Perm (x :: l) := by
  intro l
  induction l with
  | nil => exact List.Perm.refl _
  | cons y ys ih =>
    unfold insertSorted
    split
    · exact List.Perm.refl _
    · exact (List.Perm.cons y ih).trans (List.Perm.swap x y ys)

theorem sortByLe_perm {α : Type} (le : α → α → Bool) :
    ∀ l : List α, (sortByLe le l).Perm l := by
  intro l
  induction l with
  | nil => exact List.Perm.refl _
  | cons x xs ih =>
    exact (insertSorted_perm le x (sortByLe le xs)).trans (ih.cons x)

theorem insertSorted_pairwise {α : Type} (le : α → α → Bool)
    (htot : ∀ a b : α, le a b = true ∨ le b a = true)
    (htrans : ∀ a b c : α, le a b = true → le b c = true → le a c = true)
    (x : α) : ∀ l : List α, l.Pairwise (le · · = true) →
      (insertSorted le x l).Pairwise (le · · = true) := by
  intro l
  induction l with
  | nil => intro _; simp [insertSorted]
  | cons y ys ih =>
    intro h
    rw [List.pairwise_cons] at h
    unfold insertSorted
    split
    · rename_i hxy
      rw [List.pairwise_cons]
      refine ⟨?_, List.pairwise_cons.mpr h⟩
      intro z hz
      rcases List.mem_cons.mp hz with rfl | hz2
      · exact hxy
      · exact htrans x y z hxy (h.1 z hz2)
    · rename_i hxy
      have hyx : le y x = true := by
        rcases htot x y with h1 | h1
        · exact absurd h1 hxy
        · exact h1
      rw [List.pairwise_cons]
      refine ⟨?_, ih h.2⟩
      intro z hz
      have hz2 := (insertSorted_perm le x ys).mem_iff.mp hz
      rcases List.mem_cons.mp hz2 with rfl | hz3
      · exact hyx
      · exact h.1 z hz3

theorem sortByLe_pairwise {α : Type} (le : α → α → Bool)
    (htot : ∀ a b : α, le a b = true ∨ le b a = true)
    (htrans : ∀ a b c : α, le a b = true → le b c = true → le a c = true) :
    ∀ l : List α, (sortByLe le l).Pairwise (le · · = true) := by
  intro l
  induction l with
  | nil => simp [sortByLe]
  | cons x xs ih =>
    exact insertSorted_pairwise le htot htrans x (sortByLe le xs) ih

/-- Per-collection settings from the configuration (utils/config.hpp):
sort field, sort direction, template override. -/
structure CollectionConfig where
  sort_by : String
  sort_order : String
  template_name : String
deriving DecidableEq, Repr

/-- The part of `SiteConfig` the embedded pipeline reads: the per-name
collection settings. -/
structure SiteConfig where
  collections : List (String × CollectionConfig)
deriving Repr

/-- Sort key of a page: the front-matter value of the configured field,
empty when missing (`a->frontmatter.get(sort_by, "")`). -/
def pageSortKey (sortBy : String) (p : PageInfo) : List Char :=
  (p.frontmatter.get sortBy "").data

/-- The comparator lambda of `build_collections`
(site_builder.cpp:275-285): strict less-than on the sort keys, flipped
when `sort_order` is `desc`. -/
def pageCmp (cc : CollectionConfig) (a b : PageInfo) : Bool :=
  if cc.sort_order = "desc" then
    lexLt (pageSortKey cc.sort_by b) (pageSortKey cc.sort_by a)
  else
    lexLt (pageSortKey cc.sort_by a) (pageSortKey cc.sort_by b)

/-- The non-strict order induced by the comparator: `a` may precede `b`
exactly when the comparator does not demand `b` before `a`, which is the
guarantee `std::sort` gives for the output sequence. -/
def sortLe (cc : CollectionConfig) (a b : PageInfo) : Bool :=
  ! pageCmp cc b a

/-- The sorted collection for one configured content type. -/
def sortItems (cc : CollectionConfig) (items : List PageInfo) : List PageInfo :=
  sortByLe (sortLe cc) items

/-- Model of `SiteBuilder::build_collections` (site_builder.cpp:258-288):
group the non-pages pages by content type and sort each group that has a
configuration entry.  The `std::map` iteration order of the groups is not
modelled; no claim depends on it. -/
def buildCollections (cfg : SiteConfig) (pages : List (String × PageInfo)) :
    List (String × List PageInfo) :=
  let types :=
    ((pages.map fun kv => kv.2.content_type).filter fun t => t ≠ "pages").dedup
  types.map fun t =>
    (t,
      let items := (pages.map Prod.snd).filter fun p => p.content_type = t
      match alistGet cfg.collections t with
      | some cc => sortItems cc items
      | none => items)

theorem lexLe_total (x y : List Char) :
    lexLt x y = false ∨ lexLt y x = false := by
  cases hxy : lexLt x y
  · left; rfl
  · right
    cases hyx : lexLt y x
    · rfl
    · have := lexLt_trans x y x hxy hyx
      rw [lexLt_irrefl] at this
      exact Bool.noConfusion this

theorem lexNotLt_trans (x y z : List Char) :
    lexLt y x = false → lexLt z y = false → lexLt z x = false := by
  intro h1 h2
  cases hzx : lexLt z x
  · rfl
  · exfalso
    rcases lexLt_tricho x y with ht | ht | ht
    · have := lexLt_trans z x y hzx ht
      rw [h2] at this
      exact Bool.noConfusion this
    · rw [h1] at ht
      exact Bool.noConfusion ht
    · rw [ht] at hzx
      rw [h2] at hzx
      exact Bool.noConfusion hzx

theorem sortLe_total (cc : CollectionConfig) (a b : PageInfo) :
    sortLe cc a b = true ∨ sortLe cc b a = true := by
  unfold sortLe pageCmp
  by_cases hd : cc.sort_order = "desc" <;> simp only [hd, if_true, if_false, if_pos, if_neg, not_false_iff, Bool.not_eq_true', Bool.not_eq_eq_eq_not, Bool.not_true, Bool.not_eq_true]
  · rcases lexLe_total (pageSortKey cc.sort_by a) (pageSortKey cc.sort_by b) with h | h
    · left; simp [h]
    · right; simp [h]
  · rcases lexLe_total (pageSortKey cc.sort_by b) (pageSortKey cc.sort_by a) with h | h
    · left; simp [h]
    · right; simp [h]

theorem sortLe_trans (cc : CollectionConfig) (a b c : PageInfo) :
    sortLe cc a b = true → sortLe cc b c = true → sortLe cc a c = true := by
  unfold sortLe pageCmp
  by_cases hd : cc.sort_order = "desc" <;> simp only [hd, if_true, if_false, if_pos, if_neg, not_false_iff, Bool.not_eq_true', Bool.not_eq_true]
  · intro h1 h2
    exact lexNotLt_trans (pageSortKey cc.sort_by c) (pageSortKey cc.sort_by b)
      (pageSortKey cc.sort_by a) h2 h1
  · intro h1 h2
    exact lexNotLt_trans (pageSortKey cc.sort_by a) (pageSortKey cc.sort_by b)
      (pageSortKey cc.sort_by c) h1 h2

/-- The ordering claim C7 states for a built collection, spelled from the
specification: adjacent pages are ordered by case-sensitive lexicographic
comparison of the configured field, descending when `sort_order` is
`desc`, ascending otherwise. -/
def specSorted (cc : CollectionConfig) (l : List PageInfo) : Prop :=
  if cc.sort_order = "desc" then
    l.Pairwise fun a b =>
      lexLt (pageSortKey cc.sort_by a) (pageSortKey cc.sort_by b) = false
  else
    l.Pairwise fun a b =>
      lexLt (pageSortKey cc.sort_by b) (pageSortKey cc.sort_by a) = false

theorem alistGet_map_pair {α : Type} (l : List String) (f : String → α)
    (name : String) :
    alistGet (l.map fun t => (t, f t)) name =
      if name ∈ l then some (f name) else none := by
  induction l with
  | nil => simp [alistGet]
  | cons t ts ih =>
    by_cases h : t = name
    · subst h
      simp [alistGet]
    · have h2 : ¬ name = t := fun hc => h hc.symm
      simp [alistGet, h, ih, List.mem_cons, h2]

/-- A minimal blog page carrying only a date, for the claim C7 example. -/
def datePage (u d : String) : PageInfo :=
  { content_path := u
    template_path := ""
    url := u
    content_type := "blog"
    frontmatter := ⟨[("date", d)], [], []⟩
    html_content := ""
    needs_template := true }

/-- Claim C7, confirmed.  Every collection with a configuration entry is
a permutation of its raw group ordered by case-sensitive lexicographic
string comparison of the configured sort field (missing field = empty
string), ascending or descending per `sort_order`; the lookup conjunct
ties `build_collections` to the sorting function, and the final conjunct
checks the quoted desc-date example, where "2024-01-01" sorts before
"2023-05-05" by plain string comparison. -/
theorem claim_C7_collection_ordering :
    (∀ (cc : CollectionConfig) (items : List PageInfo),
      (sortItems cc items).Perm items ∧ specSorted cc (sortItems cc items)) ∧
    (∀ (cfg : SiteConfig) (pages : List (String × PageInfo)) (name : String)
      (cc : CollectionConfig) (l : List PageInfo),
      alistGet cfg.collections name = some cc →
      alistGet (buildCollections cfg pages) name = some l →
      l = sortItems cc
        ((pages.map Prod.snd).filter fun p => p.content_type = name)) ∧
    sortItems ⟨"date", "desc", ""⟩
        [datePage "/a" "2023-05-05", datePage "/b" "2024-01-01"] =
      [datePage "/b" "2024-01-01", datePage "/a" "2023-05-05"] := by
  refine ⟨?_, ?_, ?_⟩
  · intro cc items
    refine ⟨sortByLe_perm _ items, ?_⟩
    have hp := sortByLe_pairwise (sortLe cc) (sortLe_total cc) (sortLe_trans cc) items
    unfold specSorted
    split
    · rename_i hd
      refine hp.imp ?_
      intro a b h
      unfold sortLe pageCmp at h
      rw [if_pos hd] at h
      simpa using h
    · rename_i hd
      refine hp.imp ?_
      intro a b h
      unfold sortLe pageCmp at h
      rw [if_neg hd] at h
      simpa using h
  · intro cfg pages name cc l h1 h2
    simp only [buildCollections] at h2
    rw [alistGet_map_pair] at h2
    split at h2
    · rw [h1] at h2
      exact (Option.some.inj h2).symm
    · exact absurd h2 (by simp)
  · rfl

/-- Concrete collections configuration used to witness claim C7. -/
def blogConfig : SiteConfig := ⟨[("blog", ⟨"date", "desc", ""⟩)]⟩

/-- Witness for claim C7: the lookup characterization applied to a
concrete two-page blog collection sorted by date, descending. -/
theorem claim_C7_witness :
    [datePage "/b" "2024-01-01", datePage "/a" "2023-05-05"] =
      sortItems ⟨"date", "desc", ""⟩
        (([("/a", datePage "/a" "2023-05-05"),
           ("/b", datePage "/b" "2024-01-01")].map Prod.snd).filter
          fun p => p.content_type = "blog") :=
  claim_C7_collection_ordering.2.1 blogConfig
    [("/a", datePage "/a" "2023-05-05"), ("/b", datePage "/b" "2024-01-01")]
    "blog" ⟨"date", "desc", ""⟩
    [datePage "/b" "2024-01-01", datePage "/a" "2023-05-05"] rfl rfl

/-! ### Claim C10: front-matter parsing and discovery abort

`FrontMatter::parse` (frontmatter.cpp) splits the document at the
delimiters and hands the metadata text to the external `YAML::Load`; the
loader (together with the `as<std::string>` conversions of its nodes,
whose failures the same catch turns into the same error) is modelled as a
function returning either entries or an error message. -/

/-- A parsed YAML front-matter entry as the C++ consumes it: a scalar
string or a sequence of strings. -/
inductive YamlVal where
  | scalar : String → YamlVal
  | seq : List String → YamlVal
deriving DecidableEq, Repr

/-- Shape of the modelled external YAML loader. -/
def YamlLoader : Type := String → Except String (List (String × YamlVal))

/-- Model of `FrontMatter::parse` (frontmatter.cpp:4-49).  Absent opening
delimiter or closing delimiter: empty front matter and the whole document
as body.  Otherwise the text between the delimiters goes to the loader; a
loader failure becomes the runtime error `YAML parsing error: ...`.  The
body is taken from `end_pos + 5` on; when the closing delimiter was found
by the `\n---` fallback at the very end of the document, that offset walks
past the end and `substr` itself throws `std::out_of_range`, which the
`.error` on the length check models. -/
def fmParse (yamlLoad : YamlLoader) (content : String) :
    Except String (FrontMatter × String) :=
  let cs := content.data
  if extract cs 0 3 ≠ "---".data then .ok (FrontMatter.empty, content)
  else
    let endPos :=
      match findFrom cs "\n---\n".data 3 with
      | some e => some e
      | none => findFrom cs "\n---".data 3
    match endPos with
    | none => .ok (FrontMatter.empty, content)
    | some e =>
      let yamlStr := String.mk (extract cs 3 (e - 3))
      if e + 5 > cs.length then
        .error "basic_string::substr: __pos exceeds size"
      else
        let md := String.mk (cs.drop (e + 5))
        match yamlLoad yamlStr with
        | .error msg => .error ("YAML parsing error: " ++ msg)
        | .ok entries =>
          let fm := entries.foldl
            (fun fm kv =>
              match kv.2 with
              | .seq arr =>
                { fm with
                  arrays := alistSet fm.arrays kv.1 arr
                  tags := if kv.1 = "tags" then arr else fm.tags }
              | .scalar s => { fm with data := alistSet fm.data kv.1 s })
            FrontMatter.empty
          .ok (fm, md)

/-- Standalone-document detection of `discover_content`
(site_builder.cpp:194-204): presence of a doctype or an html root tag. -/
def standaloneCheck (body : String) : Bool :=
  (findFrom body.data "<!DOCTYPE".data 0).isSome ||
  (findFrom body.data "<html".data 0).isSome

/-- Last component of a path string (`fs::path::filename`). -/
def fileName (p : String) : String :=
  String.mk ((p.data.reverse.takeWhile fun c => c ≠ '/').reverse)

/-- Content-template resolution of `discover_content`
(site_builder.cpp:211-237): the configured template name for the content
type when present and non-empty, else the `{content-type}.html`
convention; either way the resolved path must exist and must not be the
base template, otherwise the page records no content template (empty
path). -/
def resolveTemplate (cfg : SiteConfig) (tplExists : String → Bool)
    (templatesDir contentType : String) : String :=
  let conventional :=
    let path := templatesDir ++ "/" ++ contentType ++ ".html"
    if tplExists path ∧ fileName path ≠ "base.html" then path else ""
  match alistGet cfg.collections contentType with
  | some cc =>
    if cc.template_name ≠ "" then
      let path := templatesDir ++ "/" ++ cc.template_name
      if tplExists path ∧ fileName path ≠ "base.html" then path else ""
    else conventional
  | none => conventional

/-- One discovered file: the components of its path relative to the
content root, and its raw bytes. -/
structure FileEntry where
  segs : List String
  content : String
deriving DecidableEq, Repr

/-- The `{Pages, Collections}` snapshot. -/
structure Snapshot where
  pages : List (String × PageInfo)
  collections : List (String × List PageInfo)
deriving Repr

/-- Processing of one directory entry inside the `discover_content` loop
(site_builder.cpp:134-253): skip foreign extensions, derive URL and
content type, split front matter (propagating its exception), convert
Markdown through the external converter, detect standalone HTML, resolve
the content template, and insert the page (last writer wins on URL
collisions). -/
def discoverStep (cfg : SiteConfig) (mdToHtml : String → String)
    (yamlLoad : YamlLoader) (tplExists : String → Bool)
    (templatesDir : String) (pages : List (String × PageInfo))
    (entry : FileEntry) : Except String (List (String × PageInfo)) :=
  let ext := pathExt (entry.segs.getLast?.getD "")
  if ext ≠ ".md" ∧ ext ≠ ".html" then .ok pages
  else
    let contentType := entry.segs.head?.getD "page"
    let url := deriveUrl entry.segs
    let parsed : Except String (FrontMatter × String × Bool) :=
      if ext = ".md" then
        match fmParse yamlLoad entry.content with
        | .error e => .error e
        | .ok (fm, body) => .ok (fm, mdToHtml body, false)
      else
        if extract entry.content.data 0 3 = "---".data then
          match fmParse yamlLoad entry.content with
          | .error e => .error e
          | .ok (fm, body) => .ok (fm, body, standaloneCheck body)
        else
          .ok (FrontMatter.empty, entry.content, standaloneCheck entry.content)
    match parsed with
    | .error e => .error e
    | .ok (fm, htmlContent, isStandalone) =>
      let tpl :=
        if isStandalone then ""
        else resolveTemplate cfg tplExists templatesDir contentType
      let page : PageInfo :=
        { content_path := String.intercalate "/" entry.segs
          template_path := tpl
          url := url
          content_type := contentType
          frontmatter := fm
          html_content := htmlContent
          needs_template := ¬ isStandalone }
      .ok (alistSet pages url page)

/-- The discovery loop over the directory listing; the first front-matter
exception aborts the walk with the pages inserted so far. -/
def discoverLoop (cfg : SiteConfig) (mdToHtml : String → String)
    (yamlLoad : YamlLoader) (tplExists : String → Bool)
    (templatesDir : String) :
    List FileEntry → List (String × PageInfo) →
      List (String × PageInfo) × Option String
  | [], pages => (pages, none)
  | e :: rest, pages =>
    match discoverStep cfg mdToHtml yamlLoad tplExists templatesDir pages e with
    | .ok pages' => discoverLoop cfg mdToHtml yamlLoad tplExists templatesDir rest pages'
    | .error msg => (pages, some msg)

/-- Model of `SiteBuilder::discover_content` (site_builder.cpp:119-256) as
a state transition on the snapshot.  The previous snapshot is cleared
unconditionally on entry (`pages.clear(); collections.clear()`), which the
model expresses by ignoring `prev` and starting from the empty state; a
missing content root leaves the cleared snapshot; a front-matter exception
aborts the walk before `build_collections` runs, so the collections stay
cleared and the error propagates to the caller uncaught. -/
def discover_content (cfg : SiteConfig) (mdToHtml : String → String)
    (yamlLoad : YamlLoader) (tplExists : String → Bool)
    (templatesDir : String) (contentDirExists : Bool)
    (files : List FileEntry) (prev : Snapshot) : Snapshot × Option String :=
  if ¬ contentDirExists then (⟨[], []⟩, none)
  else
    match discoverLoop cfg mdToHtml yamlLoad tplExists templatesDir files [] with
    | (pgs, none) => (⟨pgs, buildCollections cfg pgs⟩, none)
    | (pgs, some e) => (⟨pgs, []⟩, some e)

theorem discoverLoop_append (cfg : SiteConfig) (mdToHtml : String → String)
    (yamlLoad : YamlLoader) (tplExists : String → Bool) (templatesDir : String)
    (l1 l2 : List FileEntry) :
    ∀ acc, discoverLoop cfg mdToHtml yamlLoad tplExists templatesDir
        (l1 ++ l2) acc =
      match discoverLoop cfg mdToHtml yamlLoad tplExists templatesDir l1 acc with
      | (pgs, none) =>
        discoverLoop cfg mdToHtml yamlLoad tplExists templatesDir l2 pgs
      | (pgs, some e) => (pgs, some e) := by
  induction l1 with
  | nil => intro acc; rfl
  | cons e es ih =>
    intro acc
    simp only [List.cons_append, discoverLoop]
    match hstep : discoverStep cfg mdToHtml yamlLoad tplExists templatesDir acc e with
    | .ok pages' => exact ih pages'
    | .error msg => rfl

/-- Claim C10, confirmed.  Conjunct 1: when a document opens with the
front-matter delimiter, the closing delimiter is found, and the external
YAML loader rejects the text between them, `FrontMatter::parse` fails with
the runtime error `YAML parsing error: ...`.  Conjunct 2: that failure on
a Markdown entry aborts the processing of that entry with the same error.
Conjunct 3: `discover_content` ignores the previous snapshot entirely
(clears it on entry), so the pre-rebuild state cannot be restored.
Conjunct 4: a discovery walk that hits the failing entry stops there,
propagates the error to the caller uncaught, and leaves only the pages
discovered before the failure with the collections cleared. -/
theorem claim_C10_discovery_abort :
    (∀ (yl : YamlLoader) (s : String) (ep : Nat) (msg : String),
      extract s.data 0 3 = "---".data →
      findFrom s.data "\n---\n".data 3 = some ep →
      ep + 5 ≤ s.data.length →
      yl (String.mk (extract s.data 3 (ep - 3))) = .error msg →
      fmParse yl s = .error ("YAML parsing error: " ++ msg)) ∧
    (∀ (cfg : SiteConfig) (md : String → String) (yl : YamlLoader)
      (tpl : String → Bool) (tdir : String) (pages : List (String × PageInfo))
      (b : FileEntry) (e : String),
      pathExt (b.segs.getLast?.getD "") = ".md" →
      fmParse yl b.content = .error e →
      discoverStep cfg md yl tpl tdir pages b = .error e) ∧
    (∀ (cfg : SiteConfig) (md : String → String) (yl : YamlLoader)
      (tpl : String → Bool) (tdir : String) (cde : Bool)
      (files : List FileEntry) (prev prev' : Snapshot),
      discover_content cfg md yl tpl tdir cde files prev =
        discover_content cfg md yl tpl tdir cde files prev') ∧
    (∀ (cfg : SiteConfig) (md : String → String) (yl : YamlLoader)
      (tpl : String → Bool) (tdir : String) (pre : List FileEntry)
      (b : FileEntry) (rest : List FileEntry) (prev : Snapshot)
      (pgs : List (String × PageInfo)) (msg : String),
      discoverLoop cfg md yl tpl tdir pre [] = (pgs, none) →
      discoverStep cfg md yl tpl tdir pgs b = .error msg →
      discover_content cfg md yl tpl tdir true (pre ++ b :: rest) prev =
        (⟨pgs, []⟩, some msg)) := by
  refine ⟨?_, ?_, ?_, ?_⟩
  · intro yl s ep msg h1 h2 h3 h4
    unfold fmParse
    rw [if_neg (by simp [h1]), h2]
    simp only
    rw [if_neg (by omega), h4]
  · intro cfg md yl tpl tdir pages b e h1 h2
    unfold discoverStep
    rw [h1]
    simp only [if_neg, h2]
    rfl
  · intro cfg md yl tpl tdir cde files prev prev'
    rfl
  · intro cfg md yl tpl tdir pre b rest prev pgs msg h1 h2
    unfold discover_content
    rw [if_neg (by simp)]
    rw [discoverLoop_append, h1]
    simp only [discoverLoop, h2]

/-- A YAML loader that rejects its input, standing for `YAML::Load` on
malformed metadata. -/
def badYamlLoader : YamlLoader := fun _ => .error "bad mapping"

/-- A Markdown file whose front-matter block is not valid YAML. -/
def badEntry : FileEntry := ⟨["blog", "broken.md"], "---\ntitle: [\n---\nbody"⟩

/-- Witness for claim C10: one malformed Markdown file makes the whole
discovery return the YAML runtime error with an empty snapshot, while the
previous snapshot held a page. -/
theorem claim_C10_witness :
    discover_content ⟨[]⟩ id badYamlLoader (fun _ => false) "templates" true
        [badEntry] ⟨[("/old", samplePage)], []⟩ =
      (⟨[], []⟩, some "YAML parsing error: bad mapping") :=
  claim_C10_discovery_abort.2.2.2 ⟨[]⟩ id badYamlLoader (fun _ => false)
    "templates" [] badEntry [] ⟨[("/old", samplePage)], []⟩ []
    "YAML parsing error: bad mapping" rfl
    (claim_C10_discovery_abort.2.1 ⟨[]⟩ id badYamlLoader (fun _ => false)
      "templates" [] badEntry "YAML parsing error: bad mapping" rfl rfl)

/-! ### Claim C4: minification fallback

The QuickJS-hosted minifier bundles are external; the in-repo code under
test is the glue evaluated in `JSMinifier::initialize` (the `__minifyCSS`
wrapper with its `result.css || ""` and rethrow) and the C wrappers
`JSMinifier::minifyJS` / `minifyCSS` / `minifyHTML` (js_minifier.cpp),
plus `SiteBuilder::minify_*_content` (site_builder.cpp:57-82).  One
delegated call is modelled by the observable outcome of the hosted
engine. -/

/-- Outcome of one `csso.minify` call inside the hosted engine: an
exception, or a result object whose `css` field is absent or falsy
(`none`) or a string. -/
inductive CssoOutcome where
  | err : String → CssoOutcome
  | css : Option String → CssoOutcome
deriving DecidableEq, Repr

/-- The `__minifyCSS` glue from `JSMinifier::initialize`
(js_minifier.cpp:89-100): `result.css || ""` on success (a missing or
falsy `css` field becomes the empty string), a rethrown error on
failure. -/
def glueMinifyCSS : CssoOutcome → Except String String
  | .err m => .error ("CSS minification failed: " ++ m)
  | .css none => .ok ""
  | .css (some s) => .ok s

/-- Model of `JSMinifier::minifyCSS` (js_minifier.cpp:277-323): `nullopt`
when the engine was never initialized, when the glue function is missing,
or when the call ends in an exception (both the JS exception branch and
the C++ catch-all); the returned string otherwise. -/
def JSMinifier.minifyCSS (initialized funcFound : Bool)
    (outcome : CssoOutcome) : Option String :=
  if ¬ initialized then none
  else if ¬ funcFound then none
  else
    match glueMinifyCSS outcome with
    | .error _ => none
    | .ok s => some s

/-- Observable state of one `__minifyJS` call (js_minifier.cpp:190-275):
whether the engine was initialized and the glue found, whether `JS_Call`
raised, whether the job pump failed (`err < 0`), the value of the `error`
thunk (non-null exactly when the Terser promise rejected), and the value
of the `result` thunk (`none` models JS null: the promise never settled
within the 100 pump iterations, or resolved without a code string). -/
structure JsCallModel where
  initialized : Bool
  funcFound : Bool
  callExc : Bool
  pumpError : Bool
  errorResult : Option String
  finalResult : Option String
deriving DecidableEq, Repr

/-- Model of `JSMinifier::minifyJS`: `nullopt` on every failure branch of
the C++ (uninitialized, missing glue, call exception, pump failure,
rejected promise, null result), the result string otherwise. -/
def JSMinifier.minifyJS (m : JsCallModel) : Option String :=
  if ¬ m.initialized then none
  else if ¬ m.funcFound then none
  else if m.callExc then none
  else if m.pumpError then none
  else if m.errorResult.isSome then none
  else
    match m.finalResult with
    | none => none
    | some s => some s

/-- Model of `JSMinifier::minifyHTML` (js_minifier.cpp:325-372) over the
outcome of the `__minifyHTML` glue call. -/
def JSMinifier.minifyHTML (initialized funcFound : Bool)
    (outcome : Except String String) : Option String :=
  if ¬ initialized then none
  else if ¬ funcFound then none
  else
    match outcome with
    | .error _ => none
    | .ok s => some s

/-- Model of `SiteBuilder::minify_css_content` (site_builder.cpp:57-64):
the input text unchanged when minification is disabled or no minifier
object exists, otherwise `result.value_or(css)`. -/
def minify_css_content (minificationEnabled hasMinifier : Bool)
    (result : Option String) (css : String) : String :=
  if ¬ minificationEnabled ∨ ¬ hasMinifier then css else result.getD css

/-- Model of `SiteBuilder::minify_js_content` (site_builder.cpp:66-73). -/
def minify_js_content (minificationEnabled hasMinifier : Bool)
    (result : Option String) (js : String) : String :=
  if ¬ minificationEnabled ∨ ¬ hasMinifier then js else result.getD js

/-- Model of `SiteBuilder::minify_html_content` (site_builder.cpp:75-82). -/
def minify_html_content (minificationEnabled hasMinifier : Bool)
    (result : Option String) (html : String) : String :=
  if ¬ minificationEnabled ∨ ¬ hasMinifier then html else result.getD html

/-- Claim C4, corrected.  The original text is returned on every FAILURE
of the delegated path: minification disabled, no minifier object, engine
never initialized, glue function missing, exception raised anywhere, job
pump failure, and - for the JS path - a promise that rejected or never
settled within the iteration budget (its result thunk stays null).  The
functions are total, so no exception reaches the caller.  What the claim
wrongly includes is the empty result: a delegated run that SUCCEEDS with
an empty string is passed through as the minified output. -/
theorem claim_C4_minifier_fallback :
    (∀ (hasMin : Bool) (r : Option String) (css : String),
      minify_css_content false hasMin r css = css) ∧
    (∀ (en : Bool) (r : Option String) (css : String),
      minify_css_content en false r css = css) ∧
    (∀ (ff : Bool) (o : CssoOutcome) (css : String),
      minify_css_content true true (JSMinifier.minifyCSS false ff o) css = css) ∧
    (∀ (init : Bool) (m : String) (css : String),
      minify_css_content true true
        (JSMinifier.minifyCSS init true (.err m)) css = css) ∧
    (∀ (m : JsCallModel) (js : String),
      (¬ m.initialized ∨ ¬ m.funcFound ∨ m.callExc ∨ m.pumpError ∨
        m.errorResult.isSome ∨ m.finalResult = none) →
      minify_js_content true true (JSMinifier.minifyJS m) js = js) ∧
    (∀ (init ff : Bool) (e : String) (html : String),
      (¬ init ∨ ¬ ff) →
      minify_html_content true true
        (JSMinifier.minifyHTML init ff (.error e)) html = html) ∧
    (∀ (init ff : Bool) (e : String) (html : String),
      minify_html_content true true
        (JSMinifier.minifyHTML init ff (.error e)) html = html) := by
  refine ⟨?_, ?_, ?_, ?_, ?_, ?_, ?_⟩
  · intro hasMin r css
    simp [minify_css_content]
  · intro en r css
    simp [minify_css_content]
  · intro ff o css
    simp [minify_css_content, JSMinifier.minifyCSS]
  · intro init m css
    cases init <;> simp [minify_css_content, JSMinifier.minifyCSS, glueMinifyCSS]
  · intro m js h
    unfold minify_js_content JSMinifier.minifyJS
    rcases h with h | h | h | h | h | h <;>
      simp [h] <;> split <;> simp_all
  · intro init ff e html h
    rcases h with h | h <;>
      simp [minify_html_content, JSMinifier.minifyHTML, h]
  · intro init ff e html
    cases init <;> cases ff <;>
      simp [minify_html_content, JSMinifier.minifyHTML]

/-- Witness for claim C4: the JS fallback applied to a pump-exhausted call
(the promise never settled, `result()` is null). -/
theorem claim_C4_witness :
    minify_js_content true true
      (JSMinifier.minifyJS ⟨true, true, false, false, none, none⟩)
      "let x = 1;" = "let x = 1;" :=
  claim_C4_minifier_fallback.2.2.2.2.1 ⟨true, true, false, false, none, none⟩
    "let x = 1;" (Or.inr (Or.inr (Or.inr (Or.inr (Or.inr rfl)))))

/-- Claim C4 counterexample: a delegated CSS run that succeeds with an
empty string - `csso.minify` on a pure-comment stylesheet yields a result
whose `css` field is empty, the glue `result.css || ""` hands back `""`,
`minifyCSS` wraps it in a present optional, and `value_or` passes it
through - so the caller receives the empty string in place of the
non-empty input, where the claim promises the original text back on an
empty result. -/
theorem claim_C4_counterexample :
    minify_css_content true true
        (JSMinifier.minifyCSS true true (.css (some ""))) "/* note */" = "" ∧
    minify_css_content true true
        (JSMinifier.minifyCSS true true (.css none)) "/* note */" = "" ∧
    ("" : String) ≠ "/* note */" :=
  ⟨rfl, rfl, by decide⟩

/-! ### Claim C8: watch events, rebuild and broadcast

`DevServerListener::handleFileAction` (file_watcher_listener.cpp:18-153)
is modelled as a pure transition: the filesystem event and the observable
environment (does the base template exist, does the reload and the
rediscovery succeed, is a live-reload server with clients present, the
wall-clock milliseconds `BuildInfo::generate_build_version` would read)
come in, the new build-version state and the list of triggered effects
come out. -/

/-- `efsw::Action` values the handler inspects. -/
inductive EfswAction where
  | add | modified | delete | moved
deriving DecidableEq, Repr

/-- The process-wide `BuildInfo` singleton state. -/
structure WatcherState where
  version : Nat
deriving DecidableEq, Repr

/-- Effects the handler triggers, in order. -/
inductive WatchEffect where
  | reloadBase
  | rediscover
  | broadcast : String → Nat → WatchEffect
deriving DecidableEq, Repr

/-- `s.find(p) == 0`, occurrence at the start. -/
def strStartsWith (s p : String) : Bool :=
  extract s.data 0 p.data.length == p.data

/-- Lexical model of `fs::relative(modified, project_root)` for the files
the watcher reports, which all live under the watched roots inside the
project root. -/
def relPath (root p : String) : String :=
  if strStartsWith p (root ++ "/") then String.mk (p.data.drop (root.data.length + 1))
  else p

/-- Model of `DevServerListener::handleFileAction`.  Dotfiles, backup
names and foreign extensions are ignored, as are actions other than
create and modify.  The change is classified template / css / js / config
/ content / reload in that order; a template change reloads the base
template first (when base.html exists; a reload failure is caught and
aborts the rest).  Then one full rediscovery runs; when it succeeds the
build version is set to the clock reading
(`generate_build_version`), and `{type, version}` is broadcast when a
live-reload server with at least one client is up.  A rediscovery
exception is caught: no version bump, no broadcast. -/
def handleFileAction (root dir filename : String) (action : EfswAction)
    (baseExists reloadOk discoverOk wsPresent : Bool) (clients : Nat)
    (nowMs : Nat) (st : WatcherState) : WatcherState × List WatchEffect :=
  if filename = "" ∨ charAt filename.data 0 = '.' ∨ charAt filename.data 0 = '~'
  then (st, [])
  else
    let modified := dir ++ "/" ++ filename
    let ext := pathExt filename
    if ¬ (ext = ".md" ∨ ext = ".yaml" ∨ ext = ".yml" ∨ ext = ".html" ∨
          ext = ".css" ∨ ext = ".js") then (st, [])
    else if action ≠ EfswAction.modified ∧ action ≠ EfswAction.add then (st, [])
    else
      let relative := relPath root modified
      let isTemplate := strStartsWith relative "templates"
      let changeType :=
        if isTemplate then "template"
        else if ext = ".css" then "css"
        else if ext = ".js" then "js"
        else if ext = ".yaml" ∨ ext = ".yml" then "config"
        else if strStartsWith relative "content" then "content"
        else "reload"
      let reloadFx : List WatchEffect :=
        if isTemplate && baseExists then [.reloadBase] else []
      if isTemplate && baseExists && !reloadOk then (st, reloadFx)
      else if discoverOk then
        let st' : WatcherState := ⟨nowMs⟩
        let bc : List WatchEffect :=
          if wsPresent && clients > 0 then [.broadcast changeType nowMs] else []
        (st', reloadFx ++ [.rediscover] ++ bc)
      else (st, reloadFx ++ [.rediscover])

/-- Claim C8, corrected.  For a created or modified watched file with
extension .md or .html under the content root (and not under the template
root), a successful handling triggers exactly one rediscovery followed by
one broadcast of type "content" to a live server with connected clients;
the build version is set once per successful rebuild, to the wall-clock
millisecond reading, so the broadcast version is strictly greater than
the prior version exactly when the clock reading exceeds it (the counter
is written from the clock, not incremented).  The claim as frozen is
wrong on two points the amendment removes: a .css/.js/.yaml/.yml file
under the content root is classified by its extension, not as "content";
and nothing guarantees the clock reading exceeds the previous version. -/
theorem handleFileAction_content_case :
    ∀ (root dir filename : String) (action : EfswAction)
      (baseEx reloadOk : Bool) (clients nowMs : Nat) (st : WatcherState),
      filename ≠ "" →
      charAt filename.data 0 ≠ '.' →
      charAt filename.data 0 ≠ '~' →
      (action = EfswAction.modified ∨ action = EfswAction.add) →
      (pathExt filename = ".md" ∨ pathExt filename = ".html") →
      strStartsWith (relPath root (dir ++ "/" ++ filename)) "templates" = false →
      strStartsWith (relPath root (dir ++ "/" ++ filename)) "content" = true →
      clients > 0 →
      handleFileAction root dir filename action baseEx reloadOk true true
          clients nowMs st =
        (⟨nowMs⟩, [.rediscover, .broadcast "content" nowMs]) := by
  intro root dir filename action baseEx reloadOk clients nowMs st
  intro h1 h2 h3 h4 h5 h6 h7 h8
  unfold handleFileAction
  rw [if_neg (by simp [h1, h2, h3])]
  rcases h5 with h5 | h5 <;> rcases h4 with h4 | h4 <;>
    simp [h5, h4, h6, h7, h8]

theorem claim_C8_rebuild_broadcast :
    (∀ (root dir filename : String) (action : EfswAction)
      (baseEx reloadOk : Bool) (clients nowMs : Nat) (st : WatcherState),
      filename ≠ "" →
      charAt filename.data 0 ≠ '.' →
      charAt filename.data 0 ≠ '~' →
      (action = EfswAction.modified ∨ action = EfswAction.add) →
      (pathExt filename = ".md" ∨ pathExt filename = ".html") →
      strStartsWith (relPath root (dir ++ "/" ++ filename)) "templates" = false →
      strStartsWith (relPath root (dir ++ "/" ++ filename)) "content" = true →
      clients > 0 →
      handleFileAction root dir filename action baseEx reloadOk true true
          clients nowMs st =
        (⟨nowMs⟩, [.rediscover, .broadcast "content" nowMs])) ∧
    (∀ (root dir filename : String) (action : EfswAction)
      (baseEx reloadOk : Bool) (clients nowMs : Nat) (st : WatcherState),
      filename ≠ "" →
      charAt filename.data 0 ≠ '.' →
      charAt filename.data 0 ≠ '~' →
      (action = EfswAction.modified ∨ action = EfswAction.add) →
      (pathExt filename = ".md" ∨ pathExt filename = ".html") →
      strStartsWith (relPath root (dir ++ "/" ++ filename)) "templates" = false →
      strStartsWith (relPath root (dir ++ "/" ++ filename)) "content" = true →
      clients > 0 →
      st.version < nowMs →
      st.version <
        (handleFileAction root dir filename action baseEx reloadOk true true
          clients nowMs st).1.version) := by
  constructor
  · exact handleFileAction_content_case
  · intro root dir filename action baseEx reloadOk clients nowMs st
    intro h1 h2 h3 h4 h5 h6 h7 h8 hclock
    have h := handleFileAction_content_case root dir filename action baseEx
      reloadOk clients nowMs st h1 h2 h3 h4 h5 h6 h7 h8
    rw [h]
    exact hclock

/-- Witness for claim C8: a Markdown edit under content with one client
connected, clock reading 2000, prior version 1000. -/
theorem claim_C8_witness :
    handleFileAction "proj" "proj/content/blog" "post.md" .modified true true
        true true 1 2000 ⟨1000⟩ =
      (⟨2000⟩, [.rediscover, .broadcast "content" 2000]) :=
  claim_C8_rebuild_broadcast.1 "proj" "proj/content/blog" "post.md" .modified
    true true 1 2000 ⟨1000⟩ (by decide) (by decide) (by decide) (Or.inl rfl)
    (Or.inl rfl) (by decide) (by decide) (by decide)

/-- Claim C8 counterexample: a stylesheet under the content root is a
watched file with a recognized extension, yet the broadcast type is
"css", not "content" - the extension cases run before the content-root
case in the classification chain. -/
theorem claim_C8_counterexample :
    handleFileAction "proj" "proj/content/styles" "site.css" .modified
        true true true true 1 1000 ⟨5⟩ =
      (⟨1000⟩, [.rediscover, .broadcast "css" 1000]) ∧
    strStartsWith (relPath "proj" ("proj/content/styles" ++ "/" ++ "site.css"))
        "content" = true ∧
    pathExt "site.css" = ".css" ∧
    ("css" : String) ≠ "content" := ⟨rfl, rfl, rfl, by decide⟩

/-! ### Claim C9: rendering as a function of its inputs

`SiteBuilder::render_page` (site_builder.cpp:341-370) together with
`TemplateEngine::render` (template_engine.hpp:61-95).  The inja expression
language is external; one engine evaluation is a function parameter
returning either the rendered text or a structured failure (the C++
recognizes the missing-variable case by parsing the quoted path out of the
exception message).  The filesystem read of the content template
(`fs::exists` + `read_file`) is a function parameter from paths to
optional contents. -/

/-- Failure of one engine evaluation: a missing variable at a dotted path,
or any other error message. -/
inductive RenderErr where
  | missingVar : String → RenderErr
  | other : String → RenderErr

/-- One inja evaluation: template text and context in, text or failure
out. -/
def EnvRender : Type := String → Json → Except RenderErr String

/-- Split of the dotted variable path, with `std::getline` token
semantics (a trailing separator yields no extra empty token). -/
def splitPathDots (s : String) : List String :=
  if s = "" then []
  else if s.endsWith "." then (s.splitOn ".").dropLast
  else s.splitOn "."

/-- Model of `TemplateEngine::add_missing_path`
(template_engine.hpp:97-117): walk the context along the path, inserting
empty objects at missing intermediate keys and null at the missing leaf.
Descending into a non-object value makes `nlohmann::json::operator[]`
throw, which the `.error` models (a null is first turned into an
object). -/
def addMissingPath : List String → Json → Except String Json
  | [], j => .ok j
  | p :: rest, j =>
    match j with
    | .jobj kvs =>
      (match alistGet kvs p with
      | some c =>
        match addMissingPath rest c with
        | .ok c' => .ok (.jobj (alistSet kvs p c'))
        | .error m => .error m
      | none =>
        let child := if rest = [] then Json.null else Json.jobj []
        match addMissingPath rest child with
        | .ok c' => .ok (.jobj (alistSet kvs p c'))
        | .error m => .error m)
    | .null =>
      let child := if rest = [] then Json.null else Json.jobj []
      match addMissingPath rest child with
      | .ok c' => .ok (.jobj (alistSet [] p c'))
      | .error m => .error m
    | _ => .error "type_error.305"

/-- The bounded retry loop of `TemplateEngine::render`: up to three
engine evaluations, a missing-variable failure patches the working
context and retries, any other failure rethrows with the
`Template render error:` prefix, exhaustion fails with the fixed
message. -/
def tplRenderLoop (envR : EnvRender) (t : String) :
    Nat → Json → Except String String
  | 0, _ => .error "Template render failed after multiple recovery attempts"
  | n + 1, wd =>
    match envR t wd with
    | .ok s => .ok s
    | .error (.missingVar p) =>
      match addMissingPath (splitPathDots p) wd with
      | .ok wd' => tplRenderLoop envR t n wd'
      | .error m => .error m
    | .error (.other msg) => .error ("Template render error: " ++ msg)

/-- `TemplateEngine::render` with its `max_attempts = 3`. -/
def tplRender (envR : EnvRender) (t : String) (data : Json) :
    Except String String :=
  tplRenderLoop envR t 3 data

/-- The in-memory state `render_page` reads, plus fields it does not
(`pages`, `hasErrorPage`, `minificationEnabled`), kept to state which
parts of the builder the output depends on.  `siteData` stands for the
already-converted `yaml_to_json(config.get_custom_data())`. -/
structure World where
  siteData : Json
  collections : List (String × List PageInfo)
  baseTemplate : String
  version : Nat
  isDevMode : Bool
  fileRead : String → Option String
  envRender : EnvRender
  pages : List (String × PageInfo)
  hasErrorPage : Bool
  minificationEnabled : Bool

/-- The `collections` context object: each collection serialized in map
order. -/
def collectionsJson (w : World) : Json :=
  .jobj (w.collections.map fun kv => (kv.1, serializeCollection kv.2))

/-- Model of `SiteBuilder::inject_dev_scripts` (site_builder.cpp:105-117):
insert the live-reload script tag before the first `head` close tag, or
append it. -/
def injectDevScripts (html : String) : String :=
  let devScript := "\n<script defer src=\"/livereload.js\"></script>\n"
  match findFrom html.data "</head>".data 0 with
  | some k => String.mk (html.data.take k) ++ devScript ++ String.mk (html.data.drop k)
  | none => html ++ devScript

/-- Model of `SiteBuilder::apply_template` (site_builder.cpp:290-308):
render the content template over {site, page, collections, content}. -/
def applyTemplate (w : World) (tplContent : String) (page : PageInfo)
    (processedContent : String) : Except String String :=
  tplRender w.envRender tplContent
    (.jobj [("site", w.siteData), ("page", serializePage page),
            ("collections", collectionsJson w),
            ("content", .jstr processedContent)])

/-- Model of `SiteBuilder::apply_base_template` (site_builder.cpp:310-339):
nothing to do without a base template; otherwise render it over
{site, page, collections, content, version} and, in dev mode, inject the
live-reload script. -/
def applyBaseTemplate (w : World) (content : String) (page : PageInfo) :
    Except String String :=
  if w.baseTemplate = "" then .ok content
  else
    match tplRender w.envRender w.baseTemplate
      (.jobj [("site", w.siteData), ("page", serializePage page),
              ("collections", collectionsJson w),
              ("content", .jstr content),
              ("version", .jstr (toString w.version))]) with
    | .error e => .error e
    | .ok result => .ok (if w.isDevMode then injectDevScripts result else result)

/-- Model of `SiteBuilder::render_page` (site_builder.cpp:341-370): a
standalone page is returned verbatim; otherwise the body is rendered over
{site, page, collections}, wrapped by the content template when one is
recorded and its file is readable on disk at render time, and finally by
the base template. -/
def render_page (w : World) (page : PageInfo) : Except String String :=
  if ¬ page.needs_template then .ok page.html_content
  else
    match tplRender w.envRender page.html_content
      (.jobj [("site", w.siteData), ("page", serializePage page),
              ("collections", collectionsJson w)]) with
    | .error e => .error e
    | .ok processed =>
      let wrapped : Except String String :=
        if page.template_path ≠ "" then
          match w.fileRead page.template_path with
          | some tplContent => applyTemplate w tplContent page processed
          | none => .ok processed
        else .ok processed
      match wrapped with
      | .error e => .error e
      | .ok contentToWrap => applyBaseTemplate w contentToWrap page

/-- Claim C9, corrected.  Rendering is a deterministic function of the
page, the snapshot collections, the site data, the base template, the
build version, the dev-mode flag, the engine, AND the on-disk contents of
the resolved content-template file, which `render_page` re-reads on every
call; two calls agreeing on all of these yield identical output whatever
the rest of the builder state does. -/
theorem claim_C9_render_determinism :
    ∀ (w1 w2 : World) (page : PageInfo),
      w1.siteData = w2.siteData →
      w1.collections = w2.collections →
      w1.baseTemplate = w2.baseTemplate →
      w1.version = w2.version →
      w1.isDevMode = w2.isDevMode →
      w1.envRender = w2.envRender →
      w1.fileRead page.template_path = w2.fileRead page.template_path →
      render_page w1 page = render_page w2 page := by
  intro w1 w2 page h1 h2 h3 h4 h5 h6 h7
  unfold render_page applyTemplate applyBaseTemplate collectionsJson
  rw [h1, h2, h3, h4, h5, h6, h7]

/-- A deterministic stand-in engine: evaluation returns the template text
itself. -/
def envEcho : EnvRender := fun t _ => .ok t

/-- A page with a recorded content template, for the claim C9 worlds. -/
def tplPage : PageInfo :=
  { content_path := "content/blog/x.md"
    template_path := "templates/blog.html"
    url := "/blog/x"
    content_type := "blog"
    frontmatter := FrontMatter.empty
    html_content := "body text"
    needs_template := true }

/-- Builder state at the first render call. -/
def worldA : World :=
  { siteData := .jobj []
    collections := []
    baseTemplate := ""
    version := 7
    isDevMode := false
    fileRead := fun _ => some "TEMPLATE A"
    envRender := envEcho
    pages := [("/blog/x", tplPage)]
    hasErrorPage := false
    minificationEnabled := true }

/-- The same state after the template file changed on disk with no
rebuild, base reload or version change in between. -/
def worldB : World := { worldA with fileRead := fun _ => some "TEMPLATE B" }

/-- A state differing from `worldA` only in fields the render never
reads. -/
def worldC : World :=
  { worldA with pages := [], hasErrorPage := true, minificationEnabled := false }

/-- Claim C9 counterexample: two renders of the same page against the
same snapshot, configuration, base template, build version and dev-mode
flag - everything the claim lists, with no intervening rebuild,
base-template reload, or version change - produce different bytes,
because the content-template file on disk changed between the calls and
`render_page` re-reads it each time.  Rendering is therefore not a
function of the determinants the claim enumerates. -/
theorem claim_C9_counterexample :
    render_page worldA tplPage = .ok "TEMPLATE A" ∧
    render_page worldB tplPage = .ok "TEMPLATE B" ∧
    worldA.pages = worldB.pages ∧
    worldA.collections = worldB.collections ∧
    worldA.siteData = worldB.siteData ∧
    worldA.baseTemplate = worldB.baseTemplate ∧
    worldA.version = worldB.version ∧
    worldA.isDevMode = worldB.isDevMode ∧
    worldA.envRender = worldB.envRender ∧
    (Except.ok "TEMPLATE A" : Except String String) ≠ .ok "TEMPLATE B" :=
  ⟨rfl, rfl, rfl, rfl, rfl, rfl, rfl, rfl, rfl,
    fun h => absurd (Except.ok.inj h) (by decide)⟩

/-- Witness for claim C9: the determinism theorem applied to `worldA` and
a state differing only in render-irrelevant fields. -/
theorem claim_C9_witness :
    render_page worldA tplPage = render_page worldC tplPage :=
  claim_C9_render_determinism worldA worldC tplPage rfl rfl rfl rfl rfl rfl rfl

/-! ### Claims C5 and C6: the streaming HTML minifier

`HtmlMinifier::minify` (html_minifier.cpp:136-382) is embedded as one
scanner step per outer-loop iteration over an explicit state, iterated
with fuel (every iteration advances the position, so `length + 1` steps
always finish).  The inline JS/CSS minifiers invoked inside captured
script/style blocks are the sibling methods `minify_js`/`minify_css`;
they are passed as function parameters here - claims C5 and C6 hold for
every choice of them. -/

/-- `HtmlMinifierOptions` (html_minifier.hpp); the two fields the
embedded scanner never reads are kept for completeness. -/
structure HmOpts where
  remove_comments : Bool := true
  collapse_whitespace : Bool := true
  remove_empty_attributes : Bool := true
  minify_inline_css : Bool := true
  minify_inline_js : Bool := true
  preserve_line_breaks : Bool := false
deriving DecidableEq, Repr

/-- `should_preserve_whitespace`: pre and textarea. -/
def preserveTag (t : String) : Bool :=
  t == "pre" || t == "textarea"

/-- The inline-element set of the `is_inline` lambda
(html_minifier.cpp:146-152). -/
def isInlineTag (t : String) : Bool :=
  t ∈ ["a", "span", "strong", "em", "b", "i", "u", "small", "code", "abbr",
       "cite", "kbd", "mark", "q", "s", "sub", "sup", "time", "var",
       "button", "label"]

/-- The void-element set (html_minifier.cpp:237-239); never pushed onto
the open-element stack. -/
def voidTag (t : String) : Bool :=
  t ∈ ["area", "base", "br", "col", "embed", "hr", "img", "input", "link",
       "meta", "param", "source", "track", "wbr"]

/-- Scanner state of the outer loop: accumulated output, the stack of
open non-void elements (top at the head; the C++ vector keeps the top at
the back and the membership scans are order-independent), the pending
collapsed space, and the input position. -/
structure MState where
  out : List Char
  stack : List String
  pending : Bool
  i : Nat
deriving DecidableEq, Repr

/-- `remove_trailing_space` (html_minifier.cpp:168-175): drop one
trailing space of the output. -/
def removeTrailingSpace (out : List Char) : List Char :=
  if out.getLast? = some ' ' then out.dropLast else out

/-- Pop the stack if its top equals the tag. -/
def popIfTop (stack : List String) (tag : String) : List String :=
  match stack with
  | t :: rest => if t = tag then rest else stack
  | [] => []

/-- Leading and trailing whitespace trim used on captured script/style
content (html_minifier.cpp:303-312). -/
def trimWsList (l : List Char) : List Char :=
  ((l.dropWhile fun c => wsChar c).reverse.dropWhile fun c => wsChar c).reverse

/-- The tag-name scan (html_minifier.cpp:223-229): consume characters up
to whitespace, `>` or `/`, accumulating the lowercased name and echoing
the originals.  Returns the name, the echoed characters and the new
position. -/
def scanTagName (s : List Char) : Nat → Nat → List Char × List Char × Nat
  | 0, i => ([], [], i)
  | fuel + 1, i =>
    if i < s.length then
      let c := charAt s i
      if ¬ wsChar c ∧ c ≠ '>' ∧ c ≠ '/' then
        let (t, o, j) := scanTagName s fuel (i + 1)
        (lowerChar c :: t, c :: o, j)
      else ([], [], i)
    else ([], [], i)

/-- The attribute scan (html_minifier.cpp:250-289): runs to the closing
`>` or the end of input; `/>` pops the matching stack top, strips a
pending collapsed space and emits `/>`; quoted attribute values are
copied verbatim; with collapsing on, whitespace runs between attributes
become one space. -/
def attrLoop (collapseWs : Bool) (s : List Char) (tag : String) :
    Nat → List Char → List String → Bool → Char → Bool → Nat →
      List Char × List String × Nat
  | 0, out, stack, _, _, _, i => (out, stack, i)
  | fuel + 1, out, stack, inAttr, quote, lastWs, i =>
    if i < s.length ∧ charAt s i ≠ '>' then
      let ch := charAt s i
      if ch = '/' ∧ i + 1 < s.length ∧ charAt s (i + 1) = '>' then
        (removeTrailingSpace out ++ ['/', '>'], popIfTop stack tag, i + 2)
      else if ¬ inAttr ∧ (ch = '"' ∨ ch = '\'') then
        attrLoop collapseWs s tag fuel (out ++ [ch]) stack true ch false (i + 1)
      else if inAttr ∧ ch = quote then
        attrLoop collapseWs s tag fuel (out ++ [ch]) stack false nulChar false (i + 1)
      else if inAttr then
        attrLoop collapseWs s tag fuel (out ++ [ch]) stack inAttr quote false (i + 1)
      else if collapseWs ∧ wsChar ch then
        if ¬ lastWs then
          attrLoop collapseWs s tag fuel (out ++ [' ']) stack inAttr quote true (i + 1)
        else
          attrLoop collapseWs s tag fuel out stack inAttr quote lastWs (i + 1)
      else
        attrLoop collapseWs s tag fuel (out ++ [ch]) stack inAttr quote false (i + 1)
    else (out, stack, i)

/-- Captured raw block for an opening script or style tag
(html_minifier.cpp:297-342): everything up to the matching close tag is
taken verbatim, trimmed, optionally passed through the inline minifier,
and the position moves to the close tag.  Without a close tag the scanner
just continues. -/
def scriptStyleCapture (o : HmOpts) (jsMin cssMin : List Char → List Char)
    (s : List Char) (isClosing : Bool) (tag : String) (out : List Char)
    (i : Nat) : List Char × Nat :=
  if ¬ isClosing ∧ tag = "script" then
    match findFrom s "</script>".data i with
    | some e =>
      let content := trimWsList (extract s i (e - i))
      let content := if o.minify_inline_js ∧ content ≠ [] then jsMin content else content
      (out ++ content, e)
    | none => (out, i)
  else if ¬ isClosing ∧ tag = "style" then
    match findFrom s "</style>".data i with
    | some e =>
      let content := trimWsList (extract s i (e - i))
      let content := if o.minify_inline_css ∧ content ≠ [] then cssMin content else content
      (out ++ content, e)
    | none => (out, i)
  else (out, i)

/-- The space-emission test of the text branch
(html_minifier.cpp:358-373): a pending collapsed space is written before
the current character only when the previous output character exists and
is no tag delimiter, and either some open element on the stack is inline
or both neighbours are alphanumeric. -/
def spaceEmit (out : List Char) (stack : List String) (pending : Bool)
    (c : Char) : Bool :=
  match out.getLast? with
  | none => false
  | some p =>
    pending && p ≠ '>' && p ≠ '<' &&
      (stack.any isInlineTag || (alnumChar p && alnumChar c))

/-- The `c == '<'` branch (html_minifier.cpp:210-346) and the text branch
(348-378) of the outer loop. -/
def hmStepTagText (o : HmOpts) (jsMin cssMin : List Char → List Char)
    (s : List Char) (st : MState) : MState :=
  let c := charAt s st.i
  if c = '<' then
    let out1 := st.out ++ ['<']
    let i1 := st.i + 1
    let isClosing := i1 < s.length ∧ charAt s i1 = '/'
    let out2 := if isClosing then out1 ++ ['/'] else out1
    let i2 := if isClosing then i1 + 1 else i1
    let (tagL, echo, i3) := scanTagName s (s.length + 1) i2
    let tag := String.mk tagL
    let out3 := out2 ++ echo
    let stack1 :=
      if isClosing then popIfTop st.stack tag
      else if voidTag tag then st.stack else tag :: st.stack
    let (out4, stack2, i4) :=
      attrLoop o.collapse_whitespace s tag (s.length + 1) out3 stack1
        false nulChar false i3
    if i4 < s.length ∧ charAt s i4 = '>' then
      let out5 := removeTrailingSpace out4 ++ ['>']
      let (out6, i6) :=
        scriptStyleCapture o jsMin cssMin s isClosing tag out5 (i4 + 1)
      { out := out6, stack := stack2, pending := false, i := i6 }
    else
      { out := out4, stack := stack2, pending := false, i := i4 }
  else
    if st.stack.any preserveTag then
      { st with out := st.out ++ [c], i := st.i + 1 }
    else if o.collapse_whitespace ∧ wsChar c then
      { st with pending := true, i := st.i + 1 }
    else
      { st with
        out := st.out ++
          (if spaceEmit st.out st.stack st.pending c then [' ', c] else [c])
        pending := false
        i := st.i + 1 }

/-- The doctype passthrough (html_minifier.cpp:200-208), falling through
to the tag/text branches when there is no closing `>`. -/
def hmStepDoctype (o : HmOpts) (jsMin cssMin : List Char → List Char)
    (s : List Char) (st : MState) : MState :=
  if st.i + 9 ≤ s.length ∧ extract s st.i 9 = "<!DOCTYPE".data then
    match findFrom s ['>'] st.i with
    | some e =>
      { out := st.out ++ extract s st.i (e - st.i + 1)
        stack := st.stack
        pending := false
        i := e + 1 }
    | none => hmStepTagText o jsMin cssMin s st
  else hmStepTagText o jsMin cssMin s st

/-- One full iteration of the outer scanning loop: the comment branch
(html_minifier.cpp:180-198) - removal for ordinary comments, verbatim
copy-through `<![endif]` plus one character for conditional comments -
then doctype, tag and text handling. -/
def hmStep (o : HmOpts) (jsMin cssMin : List Char → List Char)
    (s : List Char) (st : MState) : MState :=
  if o.remove_comments ∧ st.i + 4 ≤ s.length ∧ extract s st.i 4 = "<!--".data
  then
    match findFrom s "-->".data (st.i + 4) with
    | some e =>
      if st.i + 5 < s.length ∧ charAt s (st.i + 4) = '[' then
        match findFrom s "<![endif]".data st.i with
        | some ce =>
          if ce < e + 20 then
            let j := min (ce + 10) s.length
            { st with out := st.out ++ extract s st.i (j - st.i), i := j }
          else { st with i := e + 3, pending := false }
        | none => { st with i := e + 3, pending := false }
      else { st with i := e + 3, pending := false }
    | none => hmStepDoctype o jsMin cssMin s st
  else hmStepDoctype o jsMin cssMin s st

/-- The outer loop, iterated with fuel. -/
def hmLoop (o : HmOpts) (jsMin cssMin : List Char → List Char)
    (s : List Char) : Nat → MState → MState
  | 0, st => st
  | fuel + 1, st =>
    if st.i < s.length then
      hmLoop o jsMin cssMin s fuel (hmStep o jsMin cssMin s st)
    else st

/-- Model of `HtmlMinifier::minify`: run the scanner from the empty state
over the whole input. -/
def htmlMinify (o : HmOpts) (jsMin cssMin : List Char → List Char)
    (html : String) : String :=
  String.mk (hmLoop o jsMin cssMin html.data (html.data.length + 1)
    ⟨[], [], false, 0⟩).out


theorem findFromAux_spec (s pat : List Char) :
    ∀ (fuel i j : Nat), findFromAux s pat i fuel = some j →
      i ≤ j ∧ j + pat.length ≤ s.length ∧ extract s j pat.length = pat := by
  intro fuel
  induction fuel with
  | zero => intro i j h; simp [findFromAux] at h
  | succ f ih =>
    intro i j h
    unfold findFromAux at h
    split at h
    · split at h
      · rename_i hlen hm
        cases h
        refine ⟨Nat.le_refl _, hlen, ?_⟩
        simpa [matchesAt] using hm
      · have := ih (i + 1) j h
        exact ⟨by omega, this.2.1, this.2.2⟩
    · exact absurd h (by simp)

theorem findFrom_spec (s pat : List Char) (i j : Nat)
    (h : findFrom s pat i = some j) :
    i ≤ j ∧ j + pat.length ≤ s.length ∧ extract s j pat.length = pat :=
  findFromAux_spec s pat (s.length + 1) i j h

theorem extract_charAt (s : List Char) (i n : Nat) (l : List Char)
    (h : extract s i n = l) (j : Nat) (hj : j < l.length) :
    charAt s (i + j) = l.getD j nulChar := by
  subst h
  unfold extract at hj ⊢
  rw [List.length_take, List.length_drop] at hj
  have hjn : j < n := lt_of_lt_of_le hj (min_le_left _ _)
  unfold charAt
  rw [List.getD_eq_getElem?_getD, List.getD_eq_getElem?_getD,
    List.getElem?_take, List.getElem?_drop]
  simp [hjn]

theorem extract_snoc (s : List Char) (a m : Nat) (h : a + m < s.length) :
    extract s a (m + 1) = extract s a m ++ [charAt s (a + m)] := by
  unfold extract charAt
  rw [List.take_succ]
  congr 1
  rw [List.getElem?_drop]
  rw [List.getElem?_eq_getElem h]
  rw [List.getD_eq_getElem?_getD, List.getElem?_eq_getElem h]
  rfl

theorem hmStep_not_lt (o : HmOpts) (jsMin cssMin : List Char → List Char)
    (s : List Char) (st : MState) (hc : charAt s st.i ≠ '<') :
    hmStep o jsMin cssMin s st = hmStepTagText o jsMin cssMin s st := by
  have hcm : ¬ (o.remove_comments = true ∧ st.i + 4 ≤ s.length ∧
      extract s st.i 4 = "<!--".data) := by
    rintro ⟨_, _, hm⟩
    have h0 := extract_charAt s st.i 4 _ hm 0 (by decide)
    simp at h0
    exact hc h0
  have hdt : ¬ (st.i + 9 ≤ s.length ∧ extract s st.i 9 = "<!DOCTYPE".data) := by
    rintro ⟨_, hm⟩
    have h0 := extract_charAt s st.i 9 _ hm 0 (by decide)
    simp at h0
    exact hc h0
  unfold hmStep hmStepDoctype
  rw [if_neg hcm, if_neg hdt]

theorem hmStep_whitespace (o : HmOpts) (jsMin cssMin : List Char → List Char)
    (s : List Char) (st : MState)
    (hcol : o.collapse_whitespace = true)
    (hws : wsChar (charAt s st.i) = true)
    (hpre : st.stack.any preserveTag = false) :
    hmStep o jsMin cssMin s st = { st with pending := true, i := st.i + 1 } := by
  have hc : charAt s st.i ≠ '<' := by
    intro h
    rw [h] at hws
    simp [wsChar] at hws
  rw [hmStep_not_lt o jsMin cssMin s st hc]
  unfold hmStepTagText
  rw [if_neg hc, if_neg (by simp [hpre]), if_pos ⟨hcol, hws⟩]

theorem hmStep_nonws (o : HmOpts) (jsMin cssMin : List Char → List Char)
    (s : List Char) (st : MState)
    (hc : charAt s st.i ≠ '<')
    (hnws : wsChar (charAt s st.i) = false)
    (hpre : st.stack.any preserveTag = false) :
    hmStep o jsMin cssMin s st =
      { st with
        out := st.out ++
          (if spaceEmit st.out st.stack st.pending (charAt s st.i)
           then [' ', charAt s st.i] else [charAt s st.i])
        pending := false
        i := st.i + 1 } := by
  rw [hmStep_not_lt o jsMin cssMin s st hc]
  unfold hmStepTagText
  rw [if_neg hc, if_neg (by simp [hpre]), if_neg (by simp [hnws])]

theorem spaceEmit_not_pending (out : List Char) (stack : List String)
    (c : Char) : spaceEmit out stack false c = false := by
  unfold spaceEmit
  cases out.getLast? <;> simp

theorem hmStep_char_nopending (o : HmOpts)
    (jsMin cssMin : List Char → List Char) (s : List Char) (st : MState)
    (hc : charAt s st.i ≠ '<')
    (hnws : wsChar (charAt s st.i) = false)
    (hpend : st.pending = false) :
    hmStep o jsMin cssMin s st =
      { st with out := st.out ++ [charAt s st.i], pending := false,
                i := st.i + 1 } := by
  rw [hmStep_not_lt o jsMin cssMin s st hc]
  unfold hmStepTagText
  rw [if_neg hc]
  by_cases hpre : st.stack.any preserveTag = true
  · rw [if_pos hpre]
    cases st
    simp_all
  · rw [if_neg hpre, if_neg (by simp [hnws]), hpend, spaceEmit_not_pending]
    simp

theorem hmStep_comment_removal (o : HmOpts)
    (jsMin cssMin : List Char → List Char) (s : List Char) (st : MState)
    (e : Nat)
    (h1 : o.remove_comments = true)
    (h2 : st.i + 4 ≤ s.length)
    (h3 : extract s st.i 4 = "<!--".data)
    (h4 : findFrom s "-->".data (st.i + 4) = some e)
    (h5 : charAt s (st.i + 4) ≠ '[') :
    hmStep o jsMin cssMin s st = { st with i := e + 3, pending := false } := by
  unfold hmStep
  rw [if_pos ⟨h1, h2, h3⟩, h4]
  simp only
  rw [if_neg (by rintro ⟨_, hcontra⟩; exact h5 hcontra)]

theorem hmStep_conditional_copy (o : HmOpts)
    (jsMin cssMin : List Char → List Char) (s : List Char) (st : MState)
    (e ce : Nat)
    (h1 : o.remove_comments = true)
    (h2 : st.i + 4 ≤ s.length)
    (h3 : extract s st.i 4 = "<!--".data)
    (h4 : findFrom s "-->".data (st.i + 4) = some e)
    (h5 : st.i + 5 < s.length)
    (h6 : charAt s (st.i + 4) = '[')
    (h7 : findFrom s "<![endif]".data st.i = some ce)
    (h8 : ce < e + 20)
    (h9 : ce + 10 ≤ s.length) :
    hmStep o jsMin cssMin s st =
      { st with out := st.out ++ extract s st.i (ce + 10 - st.i),
                i := ce + 10 } := by
  unfold hmStep
  rw [if_pos ⟨h1, h2, h3⟩, h4]
  simp only
  rw [if_pos ⟨h5, h6⟩, h7]
  simp only
  rw [if_pos h8]
  have hmin : min (ce + 10) s.length = ce + 10 := Nat.min_eq_left h9
  rw [hmin]

theorem hmStep_conditional_passthrough (o : HmOpts)
    (jsMin cssMin : List Char → List Char) (s : List Char) (st : MState)
    (ce : Nat)
    (h1 : o.remove_comments = true)
    (hpend : st.pending = false)
    (h2 : st.i + 4 ≤ s.length)
    (h3 : extract s st.i 4 = "<!--".data)
    (h4 : findFrom s "-->".data (st.i + 4) = some (ce + 9))
    (h5 : st.i + 5 < s.length)
    (h6 : charAt s (st.i + 4) = '[')
    (h7 : findFrom s "<![endif]".data st.i = some ce)
    (htrail : extract s (ce + 9) 3 = "-->".data)
    (h12 : ce + 12 ≤ s.length) :
    hmStep o jsMin cssMin s (hmStep o jsMin cssMin s
        (hmStep o jsMin cssMin s st)) =
      { st with out := st.out ++ extract s st.i (ce + 12 - st.i),
                pending := false,
                i := ce + 12 } := by
  have hice : st.i ≤ ce := (findFrom_spec s _ st.i ce h7).1
  have hd1 : charAt s (ce + 10) = '-' := by
    have h := extract_charAt s (ce + 9) 3 _ htrail 1 (by decide)
    have harith : ce + 9 + 1 = ce + 10 := by omega
    rw [harith] at h
    exact h
  have hd2 : charAt s (ce + 11) = '>' := by
    have h := extract_charAt s (ce + 9) 3 _ htrail 2 (by decide)
    have harith : ce + 9 + 2 = ce + 11 := by omega
    rw [harith] at h
    exact h
  have s1 : hmStep o jsMin cssMin s st =
      { st with out := st.out ++ extract s st.i (ce + 10 - st.i),
                i := ce + 10 } :=
    hmStep_conditional_copy o jsMin cssMin s st (ce + 9) ce h1 h2 h3 h4 h5 h6
      h7 (by omega) (by omega)
  rw [s1]
  have s2 : hmStep o jsMin cssMin s
      { st with out := st.out ++ extract s st.i (ce + 10 - st.i),
                i := ce + 10 } =
      { st with out := (st.out ++ extract s st.i (ce + 10 - st.i)) ++ ['-'],
                pending := false, i := ce + 11 } := by
    have h := hmStep_char_nopending o jsMin cssMin s
      { st with out := st.out ++ extract s st.i (ce + 10 - st.i),
                i := ce + 10 }
      (by show charAt s (ce + 10) ≠ '<'; rw [hd1]; decide)
      (by show wsChar (charAt s (ce + 10)) = false; rw [hd1]; decide)
      hpend
    rw [h]
    rw [show charAt s (ce + 10) = '-' from hd1]
  rw [s2]
  have s3 : hmStep o jsMin cssMin s
      { st with out := (st.out ++ extract s st.i (ce + 10 - st.i)) ++ ['-'],
                pending := false, i := ce + 11 } =
      { st with
        out := ((st.out ++ extract s st.i (ce + 10 - st.i)) ++ ['-']) ++ ['>'],
        pending := false, i := ce + 12 } := by
    have h := hmStep_char_nopending o jsMin cssMin s
      { st with out := (st.out ++ extract s st.i (ce + 10 - st.i)) ++ ['-'],
                pending := false, i := ce + 11 }
      (by show charAt s (ce + 11) ≠ '<'; rw [hd2]; decide)
      (by show wsChar (charAt s (ce + 11)) = false; rw [hd2]; decide)
      rfl
    rw [h]
    rw [show charAt s (ce + 11) = '>' from hd2]
  rw [s3]
  have e1 : extract s st.i (ce + 11 - st.i) =
      extract s st.i (ce + 10 - st.i) ++ [charAt s (ce + 10)] := by
    have h := extract_snoc s st.i (ce + 10 - st.i) (by omega)
    have harith : st.i + (ce + 10 - st.i) = ce + 10 := by omega
    rw [harith] at h
    have harith2 : ce + 10 - st.i + 1 = ce + 11 - st.i := by omega
    rw [harith2] at h
    exact h
  have e2 : extract s st.i (ce + 12 - st.i) =
      extract s st.i (ce + 11 - st.i) ++ [charAt s (ce + 11)] := by
    have h := extract_snoc s st.i (ce + 11 - st.i) (by omega)
    have harith : st.i + (ce + 11 - st.i) = ce + 11 := by omega
    rw [harith] at h
    have harith2 : ce + 11 - st.i + 1 = ce + 12 - st.i := by omega
    rw [harith2] at h
    exact h
  rw [e2, e1, hd1, hd2]
  simp [List.append_assoc]

/-- Default minifier options (html_minifier.hpp defaults: everything on,
line breaks not preserved). -/
def defaultOpts : HmOpts := {}

/-- The conditional-comment example quoted by claim C5. -/
def condCommentEx : String :=
  "<!--[if lt IE 9]><link rel=\"stylesheet\" href=\"ie.css\"><![endif]-->"

/-- Claim C5, corrected.  With comment removal on, an ordinary comment at
the scanner position is skipped without emitting anything (conjunct 1);
a well-formed conditional comment reached with NO collapsed space pending
is passed through byte-for-byte (conjunct 2: the scanner copies through
`<![endif]` plus one character, and the remaining two characters of the
close are re-emitted verbatim by the next two steps).  Conjuncts 3 to 5
check the quoted examples, the last one with comment removal off:
conditional comments survive either setting.  The claim as frozen is
wrong only for a conditional comment immediately preceded by collapsible
whitespace, where the pending space can be re-emitted inside the trailing
`-->` (see the counterexample). -/
theorem claim_C5_comment_handling :
    (∀ (o : HmOpts) (jsMin cssMin : List Char → List Char) (s : List Char)
      (st : MState) (e : Nat),
      o.remove_comments = true →
      st.i + 4 ≤ s.length →
      extract s st.i 4 = "<!--".data →
      findFrom s "-->".data (st.i + 4) = some e →
      charAt s (st.i + 4) ≠ '[' →
      hmStep o jsMin cssMin s st = { st with i := e + 3, pending := false }) ∧
    (∀ (o : HmOpts) (jsMin cssMin : List Char → List Char) (s : List Char)
      (st : MState) (ce : Nat),
      o.remove_comments = true →
      st.pending = false →
      st.i + 4 ≤ s.length →
      extract s st.i 4 = "<!--".data →
      findFrom s "-->".data (st.i + 4) = some (ce + 9) →
      st.i + 5 < s.length →
      charAt s (st.i + 4) = '[' →
      findFrom s "<![endif]".data st.i = some ce →
      extract s (ce + 9) 3 = "-->".data →
      ce + 12 ≤ s.length →
      hmStep o jsMin cssMin s (hmStep o jsMin cssMin s
          (hmStep o jsMin cssMin s st)) =
        { st with out := st.out ++ extract s st.i (ce + 12 - st.i),
                  pending := false, i := ce + 12 }) ∧
    htmlMinify defaultOpts id id "a<!-- note -->b" = "ab" ∧
    htmlMinify defaultOpts id id condCommentEx = condCommentEx ∧
    htmlMinify { defaultOpts with remove_comments := false } id id
      condCommentEx = condCommentEx := by
  refine ⟨?_, ?_, by decide, by decide, by decide⟩
  · intro o jsMin cssMin s st e h1 h2 h3 h4 h5
    exact hmStep_comment_removal o jsMin cssMin s st e h1 h2 h3 h4 h5
  · intro o jsMin cssMin s st ce h1 hpend h2 h3 h4 h5 h6 h7 htrail h12
    exact hmStep_conditional_passthrough o jsMin cssMin s st ce h1 hpend h2
      h3 h4 h5 h6 h7 htrail h12

/-- Witness for claim C5: the removal conjunct applied to the scanner
start state on the input `<!-- note -->` (the `-->` is at position 10, so
the scanner jumps to 13 with nothing emitted). -/
theorem claim_C5_witness :
    hmStep defaultOpts id id "<!-- note -->".data ⟨[], [], false, 0⟩ =
      ⟨[], [], false, 13⟩ :=
  claim_C5_comment_handling.1 defaultOpts id id "<!-- note -->".data
    ⟨[], [], false, 0⟩ 10 rfl (by decide) (by decide) (by decide) (by decide)

/-- Claim C5 counterexample: a conditional comment immediately preceded
by collapsible whitespace inside an inline element is NOT passed through
unchanged with comment removal on - the pending collapsed space is
re-emitted between the two dashes of the trailing close, so the output no
longer contains the `<![endif]-->` tail at all. -/
theorem claim_C5_counterexample :
    htmlMinify defaultOpts id id "<span>x <!--[if IE]>y<![endif]--></span>" =
      "<span>x<!--[if IE]>y<![endif]- -></span>" ∧
    (findFrom "<span>x <!--[if IE]>y<![endif]--></span>".data
      "<![endif]-->".data 0).isSome = true ∧
    findFrom "<span>x<!--[if IE]>y<![endif]- -></span>".data
      "<![endif]-->".data 0 = none :=
  ⟨by decide, by decide, by decide⟩

/-- Claim C6, corrected.  With collapsing on and no pre/textarea
ancestor open: a whitespace character adds nothing to the output and only
raises the single pending-space flag, so a whitespace run collapses to at
most one pending space (conjunct 1); the next non-whitespace,
non-tag-opening character emits that space exactly under the
`spaceEmit` condition (conjunct 2), which conjunct 3 characterizes in
the claim terms amended as the code forces: SOME open ancestor on the
stack is inline - not the nearest one - or both neighbouring characters
are alphanumeric (and the previous output character exists and is no tag
delimiter).  Conjuncts 4 and 5 check representative inputs. -/
theorem claim_C6_whitespace_collapsing :
    (∀ (o : HmOpts) (jsMin cssMin : List Char → List Char) (s : List Char)
      (st : MState),
      o.collapse_whitespace = true →
      wsChar (charAt s st.i) = true →
      st.stack.any preserveTag = false →
      hmStep o jsMin cssMin s st = { st with pending := true, i := st.i + 1 }) ∧
    (∀ (o : HmOpts) (jsMin cssMin : List Char → List Char) (s : List Char)
      (st : MState),
      charAt s st.i ≠ '<' →
      wsChar (charAt s st.i) = false →
      st.stack.any preserveTag = false →
      hmStep o jsMin cssMin s st =
        { st with
          out := st.out ++
            (if spaceEmit st.out st.stack st.pending (charAt s st.i)
             then [' ', charAt s st.i] else [charAt s st.i])
          pending := false
          i := st.i + 1 }) ∧
    (∀ (out : List Char) (stack : List String) (pending : Bool) (c : Char),
      spaceEmit out stack pending c = true ↔
        (pending = true ∧ ∃ p, out.getLast? = some p ∧ p ≠ '>' ∧ p ≠ '<' ∧
          ((∃ t ∈ stack, isInlineTag t = true) ∨
            (alnumChar p = true ∧ alnumChar c = true)))) ∧
    htmlMinify defaultOpts id id "<p>a  b</p>" = "<p>a b</p>" ∧
    htmlMinify defaultOpts id id "<div>.  .</div>" = "<div>..</div>" := by
  refine ⟨?_, ?_, ?_, by decide, by decide⟩
  · intro o jsMin cssMin s st hcol hws hpre
    exact hmStep_whitespace o jsMin cssMin s st hcol hws hpre
  · intro o jsMin cssMin s st hc hnws hpre
    exact hmStep_nonws o jsMin cssMin s st hc hnws hpre
  · intro out stack pending c
    unfold spaceEmit
    cases hl : out.getLast? with
    | none => simp
    | some p =>
      simp only [Bool.and_eq_true, Bool.or_eq_true, decide_eq_true_eq,
        List.any_eq_true]
      constructor
      · rintro ⟨⟨⟨hp, h1⟩, h2⟩, h3⟩
        exact ⟨hp, p, rfl, h1, h2, h3⟩
      · rintro ⟨hp, p', hp', h1, h2, h3⟩
        cases Option.some.inj hp'
        exact ⟨⟨⟨hp, h1⟩, h2⟩, h3⟩

/-- Witness for claim C6: the whitespace conjunct applied to the state
after scanning `x` of the input `x y` (output `x`, empty stack). -/
theorem claim_C6_witness :
    hmStep defaultOpts id id "x y".data ⟨['x'], [], false, 1⟩ =
      ⟨['x'], [], true, 2⟩ :=
  claim_C6_whitespace_collapsing.1 defaultOpts id id "x y".data
    ⟨['x'], [], false, 1⟩ rfl (by decide) (by decide)

/-- Claim C6 counterexample: between the two dots the nearest open
ancestor is the div, which is not inline, and both neighbours are dots,
not alphanumeric, so the claim as stated drops the pending space; the
code emits it, because its scan looks at EVERY open ancestor and the
outer span is inline. -/
theorem claim_C6_counterexample :
    htmlMinify defaultOpts id id "<span><div>.  .</div></span>" =
      "<span><div>. .</div></span>" ∧
    htmlMinify defaultOpts id id "<span><div>.  .</div></span>" ≠
      "<span><div>..</div></span>" ∧
    isInlineTag "div" = false ∧
    isInlineTag "span" = true ∧
    alnumChar '.' = false :=
  ⟨by decide, by decide, by decide, by decide, by decide⟩
